import Mathlib

/-!
Verification of the cross-exchange arbitrage engine
(`binance_kucoin_gateio_mexc_arbitrage.py`) against its specification.

Shallow embedding conventions:
* Python `Decimal` values are modelled as exact rationals (`ℚ`); the program
  pins a 28-digit context and parses all prices via strings, and none of the
  verified computations depend on rounding beyond the explicit `quantize`
  calls, which are modelled explicitly.
* Python strings are modelled as `List Char` (`Str` below); `str.upper`,
  `str.strip`, `str.isalpha`, `str.isdigit` are modelled with their ASCII
  semantics, which is faithful on the ASCII data the program handles.
* Optional / fallible values are `Option`; Python truthiness of numbers
  (0 is falsy) and of strings (empty is falsy) is modelled explicitly at
  each use site.
-/

/-- Python strings, modelled as lists of characters. -/
abbrev Str := List Char

/-- Coerce a Lean string literal to the `Str` model. -/
def str (s : String) : Str := s.data

/-- ASCII model of Python `str.upper` (character-wise). -/
def pyUpper (s : Str) : Str := s.map Char.toUpper

/-- Whitespace characters recognised by Python's `str.strip` / regex `\s`
(ASCII subset). -/
def pyIsWs (c : Char) : Bool :=
  c = ' ' || c = '\t' || c = '\n' || c = '\x0d' || c = '\x0b' || c = '\x0c'

/-- Python `str.strip`: drop leading and trailing whitespace. -/
def pyStrip (s : Str) : Str :=
  ((s.dropWhile pyIsWs).reverse.dropWhile pyIsWs).reverse

/-- Replace every occurrence of character `a` by `b` (Python `str.replace`
with single-character arguments). -/
def pyReplaceChar (a b : Char) (s : Str) : Str :=
  s.map (fun c => if c = a then b else c)

/-- Remove every occurrence of the characters in `cs` (chained Python
`str.replace(c, '')`). -/
def removeChars (cs : List Char) (s : Str) : Str :=
  s.filter (fun c => ¬ cs.contains c)

/-- ASCII model of Python `str.isdigit` on a single character. -/
def pyIsDigit (c : Char) : Bool := '0' ≤ c && c ≤ '9'

/-- ASCII model of Python `str.isalpha` on a single character. -/
def pyIsAlphaChar (c : Char) : Bool :=
  ('A' ≤ c && c ≤ 'Z') || ('a' ≤ c && c ≤ 'z')

/-- Python `str.isalpha`: nonempty and all characters alphabetic. -/
def pyIsAlpha (s : Str) : Bool := !s.isEmpty && s.all pyIsAlphaChar

/-- First-match lookup in an association list (Python `dict` lookup; the
transcribed dict literals below have pairwise distinct keys, so first-match
agrees with `dict` semantics). -/
def alookup [DecidableEq κ] (l : List (κ × α)) (k : κ) : Option α :=
  match l with
  | [] => none
  | (k', v) :: rest => if k' = k then some v else alookup rest k

/-- Truncation of a rational toward zero (`Decimal` `ROUND_DOWN`). -/
def ratTrunc (x : ℚ) : ℤ := if 0 ≤ x then ⌊x⌋ else -⌊-x⌋

/-- `Decimal.quantize(Decimal('0.01'), rounding=ROUND_DOWN)`:
round toward zero to two decimal places. -/
def quantDown2 (x : ℚ) : ℚ := (ratTrunc (x * 100) : ℚ) / 100

/-- `Decimal.quantize(step, rounding=ROUND_DOWN)` where `step` has `e`
fractional digits: round toward zero to `e` decimal places. -/
def quantDownPlaces (x : ℚ) (e : ℕ) : ℚ :=
  (ratTrunc (x * (10 : ℚ) ^ e) : ℚ) / (10 : ℚ) ^ e

/-- `DECIMAL_COMPARISON_EPSILON = Decimal('1e-8')`. -/
def DECIMAL_COMPARISON_EPSILON : ℚ := 1 / 100000000

example : pyStrip (str "  ab c \n") = str "ab c" := by decide
example : pyUpper (str "a(B)c") = str "A(B)C" := by decide
example : quantDown2 (3/200) = 1/100 := by norm_num [quantDown2, ratTrunc]

/-! ### Model of the two regex substitutions used by the network-name
normaliser: `re.sub(r'\s*\(.*\)\s*', '', s)` and `re.sub(r'\(.*\)', '', s)`.

Python regex semantics captured here: `.` matches any character except
`'\n'`; `re.sub` repeatedly removes the leftmost match and continues after
it. A match of `\s*\(.*\)\s*` is determined by the first `'('` that is
followed by a `')'` before the next newline; greedy `.*` then selects the
last such `')'` on that line, and the surrounding `\s*` absorb the maximal
whitespace runs before the `'('` and after the `')'`.  -/

/-- Index of the last `')'` in a list, if any. -/
def lastCloseParenIdx (l : Str) : Option ℕ :=
  match l.reverse.indexOf? ')' with
  | some k => some (l.length - 1 - k)
  | none => none

/-- Find the first `'('` (index `q`, counting from `i`) that is followed,
before the next `'\n'`, by a `')'`; return `(q, r)` with `r` the index of
the last such `')'` on that line. -/
def firstValidParen : Str → ℕ → Option (ℕ × ℕ)
  | [], _ => none
  | c :: rest, i =>
    if c = '(' then
      match lastCloseParenIdx (rest.takeWhile (· ≠ '\n')) with
      | some j => some (i, i + 1 + j)
      | none => firstValidParen rest (i + 1)
    else firstValidParen rest (i + 1)

/-- Length of the maximal whitespace run ending just before index `q`. -/
def wsRunBefore (s : Str) (q : ℕ) : ℕ := ((s.take q).reverse.takeWhile pyIsWs).length

/-- Length of the maximal whitespace run starting at index `i`. -/
def wsRunFrom (s : Str) (i : ℕ) : ℕ := ((s.drop i).takeWhile pyIsWs).length

/-- One-pass worker for `re.sub(r'\s*\(.*\)\s*', '', s)`; `fuel` bounds the
number of removed matches (each match removes at least two characters). -/
def parenSubWsAux : ℕ → Str → Str
  | 0, s => s
  | fuel + 1, s =>
    match firstValidParen s 0 with
    | none => s
    | some (q, r) =>
      let p := q - wsRunBefore s q
      let e := r + 1 + wsRunFrom s (r + 1)
      s.take p ++ parenSubWsAux fuel (s.drop e)

/-- `re.sub(r'\s*\(.*\)\s*', '', s)`. -/
def parenSubWs (s : Str) : Str := parenSubWsAux s.length s

/-- One-pass worker for `re.sub(r'\(.*\)', '', s)` (no whitespace capture). -/
def parenSubBareAux : ℕ → Str → Str
  | 0, s => s
  | fuel + 1, s =>
    match firstValidParen s 0 with
    | none => s
    | some (q, r) => s.take q ++ parenSubBareAux fuel (s.drop (r + 1))

/-- `re.sub(r'\(.*\)', '', s)`. -/
def parenSubBare (s : Str) : Str := parenSubBareAux s.length s

example : parenSubWs (str "(A\n(B)\nC)") = str "(AC)" := by decide
example : parenSubWs (str "ABC (DEF) GHI") = str "ABCGHI" := by decide
example : parenSubBare (str "(AC)") = str "" := by decide
example : parenSubBare (str "(A\n(B)\nC)") = str "(A\n\nC)" := by decide

/-! ### `Config` network tables (transcribed from the source, in order). -/

/-- `Config.NETWORK_ALIASES` (insertion order preserved; lookups model
Python `dict` access). -/
def NETWORK_ALIASES : List (Str × Str) := [
  (str "ETH", str "ERC20"), (str "ETHEREUM", str "ERC20"), (str "ETH(ERC20)", str "ERC20"), (str "ERC_20", str "ERC20"),
  (str "BSC", str "BEP20"), (str "BINANCE_SMART_CHAIN", str "BEP20"), (str "BNB_SMART_CHAIN", str "BEP20"),
  (str "BEP20(BSC)", str "BEP20"), (str "BSC(BEP20)", str "BEP20"), (str "BINANCESMARTCHAIN", str "BEP20"), (str "BNB", str "BEP20"),
  (str "TRX", str "TRC20"), (str "TRON", str "TRC20"), (str "TRON(TRC20)", str "TRC20"),
  (str "MATIC", str "POLYGON"), (str "POLYGON_POS", str "POLYGON"), (str "MATIC_ERC20", str "POLYGON"), (str "POLYGON(MATIC)", str "POLYGON"),
  (str "SOL", str "SOLANA"),
  (str "AVAXC", str "AVAX"), (str "AVAX_C_CHAIN", str "AVAX"), (str "AVAX_CCHAIN", str "AVAX"), (str "AVAXCHAIN", str "AVAX"), (str "AVAX_C", str "AVAX"),
  (str "AVALANCHE_C_CHAIN", str "AVAX"), (str "AVALANCHE", str "AVAX"), (str "AVAXCCHAIN", str "AVAX"),
  (str "OPTIMISM", str "OPTIMISM"), (str "OPTIMISMETH", str "OPTIMISM"), (str "OP_MAINNET", str "OPTIMISM"), (str "OPETH", str "OPTIMISM"),
  (str "OP", str "OPTIMISM"), (str "OPTIMISM(OP)", str "OPTIMISM"),
  (str "ARBITRUM", str "ARBITRUM_ONE"), (str "ARBITRUMONE", str "ARBITRUM_ONE"), (str "ARB", str "ARBITRUM_ONE"), (str "ARBEVM", str "ARBITRUM_ONE"),
  (str "ARBONE", str "ARBITRUM_ONE"), (str "ARBITRUM_ONE(ARB)", str "ARBITRUM_ONE"),
  (str "BTC", str "BTC"), (str "BITCOIN", str "BTC"), (str "SEGWIT", str "BTC"),
  (str "TON", str "TON"), (str "THE_OPEN_NETWORK", str "TON"), (str "TONCOIN", str "TON"), (str "TON2", str "TON"), (str "TON_WITH_MEMO", str "TON"), (str "TON(THE_OPEN_NETWORK)", str "TON"),
  (str "ZKSYNC", str "ZKSYNC_ERA"), (str "ZKSYNC2", str "ZKSYNC_ERA"), (str "ZKSYNCERA", str "ZKSYNC_ERA"), (str "ZKSERA", str "ZKSYNC_ERA"),
  (str "LINEA", str "LINEA"), (str "BASE", str "BASE"), (str "BASEEVM", str "BASE"), (str "SUI", str "SUI"), (str "SCROLL", str "SCROLL"),
  (str "APT", str "APTOS"), (str "APTOS", str "APTOS"),
  (str "STATEMINT", str "ASSET_HUB_POLKADOT"), (str "ASSET_HUB_(POLKADOT)", str "ASSET_HUB_POLKADOT"), (str "DOTSM", str "ASSET_HUB_POLKADOT"),
  (str "POLKADOTASSETHUB", str "ASSET_HUB_POLKADOT"), (str "DOT_SMPOLKADOT", str "ASSET_HUB_POLKADOT"), (str "STATEMINE", str "ASSET_HUB_KUSAMA"), (str "ASSET_HUB_POLKADOT", str "ASSET_HUB_POLKADOT"),
  (str "KCC", str "KCC"), (str "KUCOIN_COMMUNITY_CHAIN", str "KCC"), (str "KUCOINCOMMUNITYCHAIN", str "KCC"),
  (str "NEAR", str "NEAR"), (str "NEAR_PROTOCOL", str "NEAR"),
  (str "GT", str "GATECHAIN"), (str "GTEVM", str "GATECHAIN"), (str "GATECHAIN", str "GATECHAIN"),
  (str "KAVAEVM", str "KAVA_EVM"), (str "KAVA EVM", str "KAVA_EVM"), (str "KAVA_EVM_CO_CHAIN", str "KAVA_EVM"),
  (str "OPBNB", str "OPBNB"), (str "CELO", str "CELO"), (str "CELOGOLD", str "CELO"), (str "XTZ", str "TEZOS"), (str "EOS", str "EOS"), (str "VAULTA", str "EOS"),
  (str "KAIA", str "KAIA"), (str "KLAY", str "KAIA"), (str "KLAYTN", str "KAIA"), (str "MTL_NET", str "MTL_NET"), (str "MTL", str "MTL_NET"), (str "MTLETH", str "MTL_NET"),
  (str "CHZ", str "CHILIZ"), (str "CHZ2", str "CHILIZ"), (str "KMD_NET", str "KMD_NET"), (str "KMD", str "KMD_NET"), (str "kmd", str "KMD_NET"),
  (str "VET_NET", str "VET_NET"), (str "VET", str "VET_NET"), (str "CLV_NATIVE", str "CLOVER_NATIVE"), (str "CLVEVM", str "CLOVER_EVM"),
  (str "CLV", str "CLOVER_NATIVE"), (str "BERACHAIN", str "BERA"), (str "BERA_NET", str "BERA"), (str "BERA", str "BERA"),
  (str "JOY", str "JOYSTREAM"), (str "JOYSTREAM_NET", str "JOYSTREAM"), (str "BTCRUNES", str "RUNES"),
  (str "XNA_NET", str "XNA_NET"), (str "XNA", str "XNA_NET"), (str "SEIEVM", str "SEI_EVM"), (str "SEI", str "SEI"),
  (str "MTRG_NET", str "MTR_NET"), (str "MTRG", str "MTR_NET"), (str "MTR_TOKEN", str "MTR_NET"), (str "MTR", str "MTR_NET"),
  (str "MANGO_NET", str "MANGO"), (str "MANGO", str "MANGO"), (str "MGO", str "MANGO"), (str "mango", str "MANGO"),
  (str "MINTCHAIN_NET", str "MINT_NET"), (str "MINTCHAIN", str "MINT_NET"), (str "MINT_TOKEN_NET", str "MINT_NET"), (str "MINT", str "MINT_NET"),
  (str "EVMOS_NET", str "EVMOS_NET"), (str "EVMOS", str "EVMOS_NET"), (str "EVMOSETH", str "EVMOS_NET"),
  (str "INJECTIVE", str "INJ"), (str "INJ", str "INJ"), (str "ADA", str "ADA"), (str "ada", str "ADA"),
  (str "NAC", str "NAC"), (str "GAT", str "NAC"),
  (str "DEFAULT", str "DEFAULT"), (str "UNKNOWN_NETWORK", str "UNKNOWN_NETWORK")]

/-- `Config.NETWORK_PREFERENCE` (order is the general preference rank). -/
def NETWORK_PREFERENCE : List Str := [
  str "BEP20", str "POLYGON", str "OPTIMISM", str "OPBNB", str "TON", str "AVAX", str "ARBITRUM_ONE",
  str "CELO", str "SCROLL", str "APTOS", str "NEAR", str "KAVA_EVM", str "SOLANA", str "KCC",
  str "ASSET_HUB_POLKADOT", str "TEZOS", str "GATECHAIN", str "TRC20", str "EOS", str "KAIA", str "ERC20", str "ADA",
  str "MTL_NET", str "CHILIZ", str "KMD_NET", str "VET_NET", str "CLOVER_NATIVE", str "CLOVER_EVM",
  str "BERA", str "JOYSTREAM", str "RUNES", str "XNA_NET", str "SEI_EVM", str "SEI", str "MTR_NET", str "MANGO",
  str "MINT_NET", str "EVMOS_NET", str "NAC", str "INJ",
  str "LIGHTNING", str "SUI", str "ZKLINK", str "STARKNET", str "ZKSYNC_ERA", str "LINEA",
  str "MANTLE", str "BLAST", str "BRC20", str "MERLIN", str "XRP", str "XLM", str "ALGO", str "DOT", str "KSM", str "ATOM",
  str "LTC", str "DOGE", str "XMR", str "HBAR", str "ONE", str "XDC", str "KAS", str "KDA",
  str "RVN", str "SC", str "CRO", str "HECO", str "NEO3", str "ONT", str "THETA", str "ZIL", str "LSK", str "NULS",
  str "OAS", str "METIS", str "CORE", str "MODE", str "REEF",
  str "HRC20", str "BEP2", str "OMNI", str "BTC",
  str "DEFAULT", str "UNKNOWN_NETWORK"]

/-- The aggressive normal form used by the alias fallback loop: uppercase
input with spaces, hyphens and underscores removed. -/
def aggressiveForm (s : Str) : Str := removeChars [' ', '-', '_'] s

/-- The fallback loop over `NETWORK_ALIASES`: compare the aggressive forms
(and their paren-stripped variants) of the input with each alias key, in
table order, returning the first matching standard name. -/
def aggressiveAliasLookup : List (Str × Str) → Str → Str → Option Str
  | [], _, _ => none
  | (key, standard) :: rest, aggKey, aggKeyNoParen =>
    let nk := aggressiveForm (pyUpper key)
    let nknp := parenSubBare nk
    if aggKey = nk ∨ (aggKeyNoParen = nknp ∧ nknp ≠ []) then some standard
    else aggressiveAliasLookup rest aggKey aggKeyNoParen

/-- `Config.normalize_network_name_for_config` (the `None` input case of the
Python optional argument coincides with the empty string: both are falsy). -/
def normalize_network_name_for_config (name_from_api_or_file : Str) : Str :=
  if name_from_api_or_file.isEmpty then str "UNKNOWN_NETWORK" else
  let name_to_process := name_from_api_or_file.takeWhile (· ≠ '/')
  let name_upper_stripped := pyStrip (pyUpper name_to_process)
  match alookup NETWORK_ALIASES name_upper_stripped with
  | some v => v
  | none =>
    if name_upper_stripped ∈ NETWORK_PREFERENCE ∧
        name_upper_stripped ∉ [str "DEFAULT", str "UNKNOWN_NETWORK"] then
      name_upper_stripped
    else
      let name_processed_for_alias :=
        pyReplaceChar '-' '_' (pyReplaceChar ' ' '_' (pyStrip (parenSubWs name_upper_stripped)))
      match alookup NETWORK_ALIASES name_processed_for_alias with
      | some v => v
      | none =>
        if name_processed_for_alias ∈ NETWORK_PREFERENCE ∧
            name_processed_for_alias ∉ [str "DEFAULT", str "UNKNOWN_NETWORK"] then
          name_processed_for_alias
        else
          let aggressive_key := aggressiveForm name_upper_stripped
          let aggressive_key_no_paren := parenSubBare aggressive_key
          match aggressiveAliasLookup NETWORK_ALIASES aggressive_key aggressive_key_no_paren with
          | some v => v
          | none =>
            if ¬ name_processed_for_alias.isEmpty ∧ name_processed_for_alias ∈ NETWORK_PREFERENCE then
              name_processed_for_alias
            else if ¬ name_processed_for_alias.isEmpty then name_processed_for_alias
            else str "UNKNOWN_NETWORK"

example : normalize_network_name_for_config (str "ETH") = str "ERC20" := by decide
example : normalize_network_name_for_config (str "Ethereum") = str "ERC20" := by decide
example : normalize_network_name_for_config (str "ETH(ERC20)") = str "ERC20" := by decide
example : normalize_network_name_for_config (str "kava-evm") = str "KAVA_EVM" := by decide
example : normalize_network_name_for_config (str "(a\n(b)\nc)") = str "(AC)" := by decide
example : normalize_network_name_for_config (str "(AC)") = str "UNKNOWN_NETWORK" := by decide

/-! ### `Config.is_leveraged_token` and its regex patterns. -/

/-- Character class `[A-Z0-9]`. -/
def isAZ09 (c : Char) : Bool := ('A' ≤ c && c ≤ 'Z') || pyIsDigit c

/-- Character class `[A-Z0-9]` under `re.IGNORECASE`. -/
def isAZ09CI (c : Char) : Bool := isAZ09 c || ('a' ≤ c && c ≤ 'z')

/-- Shared shape of the anchored patterns: a `[A-Z0-9]{1,10}` prefix part
(given reversed) followed by the already-consumed suffix. -/
def stemOk (cls : Char → Bool) (revStem : Str) : Bool :=
  !revStem.isEmpty && revStem.length ≤ 10 && revStem.all cls

/-- `re.match(r'^[A-Z0-9]{1,10}[1-5][SL]$', s)`. -/
def re_lev_num (s : Str) : Bool :=
  match s.reverse with
  | cLS :: c15 :: revStem =>
    (cLS = 'S' || cLS = 'L') && ('1' ≤ c15 && c15 ≤ '5') && stemOk isAZ09 revStem
  | _ => false

/-- `re.match(r'^[A-Z0-9]{1,10}(UP|DOWN)$', s, re.IGNORECASE)`. -/
def re_updown (s : Str) : Bool :=
  (match s.reverse with
   | p :: u :: revStem =>
     p.toUpper = 'P' && u.toUpper = 'U' && stemOk isAZ09CI revStem
   | _ => false) ||
  (match s.reverse with
   | n :: w :: o :: d :: revStem =>
     n.toUpper = 'N' && w.toUpper = 'W' && o.toUpper = 'O' && d.toUpper = 'D' &&
       stemOk isAZ09CI revStem
   | _ => false)

/-- `re.match(r'^[A-Z0-9]{1,10}(BULL|BEAR)$', s, re.IGNORECASE)`. -/
def re_bullbear (s : Str) : Bool :=
  (match s.reverse with
   | l2 :: l1 :: u :: b :: revStem =>
     l2.toUpper = 'L' && l1.toUpper = 'L' && u.toUpper = 'U' && b.toUpper = 'B' &&
       stemOk isAZ09CI revStem
   | _ => false) ||
  (match s.reverse with
   | r :: a :: e :: b :: revStem =>
     r.toUpper = 'R' && a.toUpper = 'A' && e.toUpper = 'E' && b.toUpper = 'B' &&
       stemOk isAZ09CI revStem
   | _ => false)

/-- `re.search(r'\d[LS]$', s)`: the last two characters are a digit followed
by `L` or `S`. -/
def re_digit_ls_suffix (s : Str) : Bool :=
  match s.reverse with
  | cLS :: d :: _ => (cLS = 'L' || cLS = 'S') && pyIsDigit d
  | _ => false

/-- Fourth branch of `is_leveraged_token`: `len(s) > 2`, last character `L`
or `S`, digit before it, and the part before those two characters is
`isalpha`. -/
def lev_cond4 (symbol_base : Str) : Bool :=
  decide (2 < symbol_base.length) &&
    (match symbol_base.reverse with
     | cL :: cD :: _ => (cL = 'L' || cL = 'S') && pyIsDigit cD
     | _ => false) &&
    pyIsAlpha (symbol_base.take (symbol_base.length - 2))

/-- Fifth branch of `is_leveraged_token`: `len(s) > 7`, ends with `L` or
`S`, `s[:-1]` is not `isalpha`, and `re.search(r'\d[LS]$', s)` matches. -/
def lev_cond5 (symbol_base : Str) : Bool :=
  decide (7 < symbol_base.length) &&
    (match symbol_base.reverse with
     | cL :: _ => cL = 'L' || cL = 'S'
     | _ => false) &&
    !(pyIsAlpha (symbol_base.take (symbol_base.length - 1))) &&
    re_digit_ls_suffix symbol_base

/-- `Config.is_leveraged_token`. -/
def is_leveraged_token (symbol_base : Str) : Bool :=
  if re_lev_num symbol_base then true
  else if re_updown symbol_base then true
  else if re_bullbear symbol_base then true
  else if lev_cond4 symbol_base then true
  else if lev_cond5 symbol_base then true
  else false

example : is_leveraged_token (str "BTC3L") = true := by decide
example : is_leveraged_token (str "ETHUP") = true := by decide
example : is_leveraged_token (str "adabull") = true := by decide
example : is_leveraged_token (str "BTC") = false := by decide
example : is_leveraged_token (str "A9S") = true := by decide
example : is_leveraged_token (str "66L") = false := by decide
example : is_leveraged_token (str "ABCDEF66L") = true := by decide

/-! ### Scanner (`Scanner.scan_once`) and its configuration constants. -/

/-- `Config.MIN_PROFIT_THRESHOLD_GROSS = Decimal("1.0")`. -/
def MIN_PROFIT_THRESHOLD_GROSS : ℚ := 1

/-- `Config.MAX_PROFIT_THRESHOLD = Decimal("13.0")`. -/
def MAX_PROFIT_THRESHOLD : ℚ := 13

/-- One CCXT ticker as consumed by the scanner (absent fields are `none`;
prices are exact rationals, parsed from strings in the source). -/
structure TickerData where
  ask : Option ℚ
  bid : Option ℚ
  last : Option ℚ
  close : Option ℚ
deriving DecidableEq, Repr

/-- Which ticker field a candidate direction uses. -/
inductive PriceSide
  | ask
  | bid
deriving DecidableEq, Repr

/-- `get_relevant_price` from `Scanner.scan_once`: the requested side's
field, falling back (only when that field is `None`) to
`ticker.get('last') or ticker.get('close')`, where Python `or` also skips a
zero (falsy) `last`. -/
def get_relevant_price (t : TickerData) (side : PriceSide) : Option ℚ :=
  let price_val : Option ℚ := match side with | .ask => t.ask | .bid => t.bid
  match price_val with
  | some v => some v
  | none =>
    match t.last with
    | some l => if l = 0 then t.close else some l
    | none => t.close

/-- The fields of `ArbitrageOpportunity` populated at scan time. -/
structure ArbitrageOpportunity where
  buy_exchange_id : Str
  sell_exchange_id : Str
  symbol : Str
  buy_price : ℚ
  sell_price : ℚ
  gross_profit_pct : ℚ
  stability_count : ℕ := 0
  is_stable : Bool := false
deriving DecidableEq, Repr

/-- `ArbitrageOpportunity.get_unique_id`: `buy-sell-symbol`. -/
def get_unique_id (o : ArbitrageOpportunity) : Str :=
  o.buy_exchange_id ++ ['-'] ++ o.sell_exchange_id ++ ['-'] ++ o.symbol

/-- One candidate direction of `Scanner.scan_once`: build a gross
opportunity iff both prices resolve, are truthy and positive, buy < sell,
and the gross percentage lies within the configured thresholds. -/
def mkGrossOpportunity (ex_buy ex_sell symbol : Str) (t_buy t_sell : TickerData) :
    Option ArbitrageOpportunity :=
  match get_relevant_price t_buy .ask, get_relevant_price t_sell .bid with
  | some buy_price, some sell_price =>
    if buy_price ≠ 0 ∧ sell_price ≠ 0 ∧ 0 < buy_price ∧ 0 < sell_price ∧
        buy_price < sell_price then
      let gross := (sell_price - buy_price) / buy_price * 100
      if MIN_PROFIT_THRESHOLD_GROSS ≤ gross ∧ gross ≤ MAX_PROFIT_THRESHOLD then
        some ⟨ex_buy, ex_sell, symbol, buy_price, sell_price, gross, 0, false⟩
      else none
    else none
  | _, _ => none

/-- One symbol of one exchange pair fed to a scan cycle: the two venue ids
and the two fetched tickers (absent when the venue did not return the
symbol). -/
structure ScanEntry where
  ex1 : Str
  ex2 : Str
  symbol : Str
  ticker1 : Option TickerData
  ticker2 : Option TickerData

/-- Per-symbol body of the scan loop: skip leveraged tokens and missing
tickers, then try both directions. -/
def scanSymbol (e : ScanEntry) : List ArbitrageOpportunity :=
  if is_leveraged_token (e.symbol.takeWhile (· ≠ '/')) then []
  else
    match e.ticker1, e.ticker2 with
    | some t1, some t2 =>
      (mkGrossOpportunity e.ex1 e.ex2 e.symbol t1 t2).toList ++
        (mkGrossOpportunity e.ex2 e.ex1 e.symbol t2 t1).toList
    | _, _ => []

/-- `Scanner.scan_once` over the joined common-pair/ticker data. -/
def scan_once (entries : List ScanEntry) : List ArbitrageOpportunity :=
  entries.flatMap scanSymbol

/-- Characterisation of a successful candidate direction: everything the
scanner guarantees about a produced gross opportunity. -/
theorem mkGrossOpportunity_eq_some
    (ex_buy ex_sell symbol : Str) (t_buy t_sell : TickerData)
    (o : ArbitrageOpportunity)
    (h : mkGrossOpportunity ex_buy ex_sell symbol t_buy t_sell = some o) :
    o.buy_exchange_id = ex_buy ∧ o.sell_exchange_id = ex_sell ∧ o.symbol = symbol ∧
    get_relevant_price t_buy .ask = some o.buy_price ∧
    get_relevant_price t_sell .bid = some o.sell_price ∧
    0 < o.buy_price ∧ o.buy_price < o.sell_price ∧
    o.gross_profit_pct = (o.sell_price - o.buy_price) / o.buy_price * 100 ∧
    MIN_PROFIT_THRESHOLD_GROSS ≤ o.gross_profit_pct ∧
    o.gross_profit_pct ≤ MAX_PROFIT_THRESHOLD := by
  unfold mkGrossOpportunity at h
  cases hb : get_relevant_price t_buy PriceSide.ask with
  | none => rw [hb] at h; cases h
  | some bp =>
    cases hs : get_relevant_price t_sell PriceSide.bid with
    | none => rw [hb, hs] at h; cases h
    | some sp =>
      rw [hb, hs] at h
      dsimp only at h
      split_ifs at h with h1 h2
      cases h
      exact ⟨rfl, rfl, rfl, rfl, rfl, h1.2.2.1, h1.2.2.2.2, rfl, h2.1, h2.2⟩

/-- A candidate direction whose resolved prices violate any of the gross
conditions yields no opportunity. -/
theorem mkGrossOpportunity_eq_none
    (ex_buy ex_sell symbol : Str) (t_buy t_sell : TickerData)
    (h : ∀ bp sp, get_relevant_price t_buy .ask = some bp →
        get_relevant_price t_sell .bid = some sp →
        ¬(0 < bp ∧ 0 < sp ∧ bp < sp ∧
          MIN_PROFIT_THRESHOLD_GROSS ≤ (sp - bp) / bp * 100 ∧
          (sp - bp) / bp * 100 ≤ MAX_PROFIT_THRESHOLD)) :
    mkGrossOpportunity ex_buy ex_sell symbol t_buy t_sell = none := by
  unfold mkGrossOpportunity
  cases hb : get_relevant_price t_buy PriceSide.ask with
  | none => rfl
  | some bp =>
    cases hs : get_relevant_price t_sell PriceSide.bid with
    | none => rfl
    | some sp =>
      dsimp only
      split_ifs with h1 h2
      · exact absurd ⟨h1.2.2.1, h1.2.2.2.1, h1.2.2.2.2, h2.1, h2.2⟩ (h bp sp hb hs)
      · rfl
      · rfl

/-- C1. For every opportunity produced by one call to `Scanner.scan_once`,
the buy and sell prices are the selected tickers' ask respectively bid
(with the last/close fallback of `get_relevant_price`), both are strictly
positive, `buy_price < sell_price`,
`gross_profit_pct = (sell_price - buy_price)/buy_price * 100`, and
`MIN_PROFIT_THRESHOLD_GROSS ≤ gross_profit_pct ≤ MAX_PROFIT_THRESHOLD`;
and no candidate direction violating any of these conditions yields an
opportunity. -/
theorem C1_scan_once_gross_invariants :
    (∀ (entries : List ScanEntry) (o : ArbitrageOpportunity), o ∈ scan_once entries →
      (0 < o.buy_price ∧ o.buy_price < o.sell_price ∧
        o.gross_profit_pct = (o.sell_price - o.buy_price) / o.buy_price * 100 ∧
        MIN_PROFIT_THRESHOLD_GROSS ≤ o.gross_profit_pct ∧
        o.gross_profit_pct ≤ MAX_PROFIT_THRESHOLD) ∧
      ∃ e ∈ entries, e.symbol = o.symbol ∧
        ∃ t1 t2, e.ticker1 = some t1 ∧ e.ticker2 = some t2 ∧
          ((o.buy_exchange_id = e.ex1 ∧ o.sell_exchange_id = e.ex2 ∧
            get_relevant_price t1 .ask = some o.buy_price ∧
            get_relevant_price t2 .bid = some o.sell_price) ∨
           (o.buy_exchange_id = e.ex2 ∧ o.sell_exchange_id = e.ex1 ∧
            get_relevant_price t2 .ask = some o.buy_price ∧
            get_relevant_price t1 .bid = some o.sell_price))) ∧
    (∀ (ex_buy ex_sell symbol : Str) (t_buy t_sell : TickerData),
      (∀ bp sp, get_relevant_price t_buy .ask = some bp →
          get_relevant_price t_sell .bid = some sp →
          ¬(0 < bp ∧ 0 < sp ∧ bp < sp ∧
            MIN_PROFIT_THRESHOLD_GROSS ≤ (sp - bp) / bp * 100 ∧
            (sp - bp) / bp * 100 ≤ MAX_PROFIT_THRESHOLD)) →
      mkGrossOpportunity ex_buy ex_sell symbol t_buy t_sell = none) := by
  constructor
  · intro entries o ho
    rw [scan_once, List.mem_flatMap] at ho
    obtain ⟨e, he, hoe⟩ := ho
    rw [scanSymbol] at hoe
    split_ifs at hoe with hlev
    · cases hoe
    · cases ht1 : e.ticker1 with
      | none => rw [ht1] at hoe; cases hoe
      | some t1 =>
        cases ht2 : e.ticker2 with
        | none => rw [ht1, ht2] at hoe; cases hoe
        | some t2 =>
          rw [ht1, ht2] at hoe
          dsimp only at hoe
          rw [List.mem_append, Option.mem_toList, Option.mem_toList,
            Option.mem_def, Option.mem_def] at hoe
          cases hoe with
          | inl h1 =>
            obtain ⟨hbe, hse, hsym, hask, hbid, h0, hlt, hg, hmin, hmax⟩ :=
              mkGrossOpportunity_eq_some _ _ _ _ _ _ h1
            exact ⟨⟨h0, hlt, hg, hmin, hmax⟩, e, he, hsym.symm, t1, t2, ht1, ht2,
              Or.inl ⟨hbe, hse, hask, hbid⟩⟩
          | inr h2 =>
            obtain ⟨hbe, hse, hsym, hask, hbid, h0, hlt, hg, hmin, hmax⟩ :=
              mkGrossOpportunity_eq_some _ _ _ _ _ _ h2
            exact ⟨⟨h0, hlt, hg, hmin, hmax⟩, e, he, hsym.symm, t1, t2, ht1, ht2,
              Or.inr ⟨hbe, hse, hask, hbid⟩⟩
  · exact mkGrossOpportunity_eq_none

/-- A digit character is not alphabetic. -/
theorem pyIsDigit_not_alphaChar (c : Char) (h : pyIsDigit c = true) :
    pyIsAlphaChar c = false := by
  unfold pyIsDigit at h
  unfold pyIsAlphaChar
  rw [Bool.and_eq_true] at h
  obtain ⟨h1, h2⟩ := h
  rw [decide_eq_true_eq] at h1 h2
  rw [Bool.or_eq_false_iff, Bool.and_eq_false_iff, Bool.and_eq_false_iff]
  constructor
  · left
    rw [decide_eq_false_iff_not]
    intro hc
    have h9 : c.val.toNat ≤ 57 := h2
    have hA : 65 ≤ c.val.toNat := hc
    omega
  · left
    rw [decide_eq_false_iff_not]
    intro hc
    have h9 : c.val.toNat ≤ 57 := h2
    have hA : 97 ≤ c.val.toNat := hc
    omega

/-- The if-chain of `is_leveraged_token` is the disjunction of its five
branch conditions. -/
theorem is_leveraged_token_eq_or (s : Str) :
    is_leveraged_token s =
      (re_lev_num s || re_updown s || re_bullbear s || lev_cond4 s || lev_cond5 s) := by
  unfold is_leveraged_token
  split_ifs with h1 h2 h3 h4 h5 <;> simp_all

/-- C9 counterexample: `"66L"` ends in a digit followed by `L`, yet
`is_leveraged_token` returns `False` (the fourth claimed pattern does not
hold unconditionally). -/
theorem C9_counterexample :
    re_digit_ls_suffix (str "66L") = true ∧ is_leveraged_token (str "66L") = false := by
  constructor
  · decide
  · decide

/-- C9 (amended). `is_leveraged_token` returns `True` for every symbol base
matching `^[A-Z0-9]{1,10}[1-5][SL]$`, `^[A-Z0-9]{1,10}(UP|DOWN)$`
(case-insensitive), or `^[A-Z0-9]{1,10}(BULL|BEAR)$` (case-insensitive);
and for a base ending in a digit followed by `L`/`S` it returns `True` when
additionally the part before those two characters is purely alphabetic, or
the base is longer than 7 characters. -/
theorem C9_is_leveraged_token_patterns :
    ∀ s : Str, re_lev_num s = true ∨ re_updown s = true ∨ re_bullbear s = true ∨
      (re_digit_ls_suffix s = true ∧
        (pyIsAlpha (s.take (s.length - 2)) = true ∨ 7 < s.length)) →
      is_leveraged_token s = true := by
  intro s h
  rw [is_leveraged_token_eq_or]
  rcases h with h | h | h | ⟨hds, hcase⟩
  · simp [h]
  · simp [h]
  · simp [h]
  · obtain ⟨c1, d, rest, hrev⟩ : ∃ c1 d rest, s.reverse = c1 :: d :: rest := by
      unfold re_digit_ls_suffix at hds
      rcases hr : s.reverse with _ | ⟨a, _ | ⟨b, r⟩⟩
      · rw [hr] at hds; simp at hds
      · rw [hr] at hds; simp at hds
      · exact ⟨a, b, r, rfl⟩
    have hds' := hds
    unfold re_digit_ls_suffix at hds'
    rw [hrev] at hds'
    dsimp only at hds'
    rw [Bool.and_eq_true] at hds'
    obtain ⟨hLS, hD⟩ := hds'
    have hs : s = rest.reverse ++ [d, c1] := by
      have h' := congrArg List.reverse hrev
      rw [List.reverse_reverse] at h'
      rw [h']
      simp
    have hlen : s.length = rest.length + 2 := by rw [hs]; simp
    have htake2 : s.take (s.length - 2) = rest.reverse := by
      rw [hs]
      have hl : (rest.reverse ++ [d, c1]).length - 2 = rest.reverse.length := by simp
      rw [hl, List.take_left]
    have htake1 : s.take (s.length - 1) = rest.reverse ++ [d] := by
      have hs' : s = (rest.reverse ++ [d]) ++ [c1] := by rw [hs]; simp
      rw [hs']
      have hl : ((rest.reverse ++ [d]) ++ [c1]).length - 1 = (rest.reverse ++ [d]).length := by
        simp
      rw [hl, List.take_left]
    rcases hcase with halpha | hlong
    · have h4 : lev_cond4 s = true := by
        unfold lev_cond4
        rw [hrev, htake2]
        rw [htake2] at halpha
        have hne : ¬ rest.reverse.isEmpty = true := by
          unfold pyIsAlpha at halpha
          rw [Bool.and_eq_true] at halpha
          simpa using halpha.1
        have hlen2 : 2 < s.length := by
          rw [hlen]
          rcases rest with _ | ⟨x, xs⟩
          · simp at hne
          · simp
        simp [hlen2, hLS, hD, halpha]
      simp [h4]
    · have h5 : lev_cond5 s = true := by
        unfold lev_cond5
        rw [hrev, htake1]
        have hnotalpha : pyIsAlpha (rest.reverse ++ [d]) = false := by
          unfold pyIsAlpha
          have : (rest.reverse ++ [d]).all pyIsAlphaChar = false := by
            rw [List.all_eq_false]
            exact ⟨d, by simp, by simp [pyIsDigit_not_alphaChar d hD]⟩
          simp [this]
        simp [hlong, hLS, hD, hnotalpha, hds]
      simp [h5]

/-- Witness for the amended C9 theorem at the concrete base `"BTC3L"`. -/
theorem C9_is_leveraged_token_patterns_witness :
    is_leveraged_token (str "BTC3L") = true :=
  C9_is_leveraged_token_patterns (str "BTC3L") (Or.inl (by decide))

/-! ### C7: round-trip behaviour of the network-name normaliser. -/

/-- Every name the normaliser can produce through its alias-table,
preference-list or unknown branches: the alias values, the preference
entries and `UNKNOWN_NETWORK`. -/
def canonicalNetworkNames : List Str :=
  (NETWORK_ALIASES.map Prod.snd) ++ NETWORK_PREFERENCE ++ [str "UNKNOWN_NETWORK"]

set_option maxRecDepth 100000 in
/-- Every canonical network name is a fixed point of the normaliser. -/
theorem canonicalNetworkNames_fixed :
    ∀ y ∈ canonicalNetworkNames, normalize_network_name_for_config y = y := by decide

/-- C7 counterexample: normalisation is not idempotent. The input
`"(a\n(b)\nc)"` normalises to `"(AC)"` (the whitespace-absorbing paren
substitution merges the two lines), which in turn normalises to
`"UNKNOWN_NETWORK"`. -/
theorem C7_counterexample :
    normalize_network_name_for_config
        (normalize_network_name_for_config (str "(a\n(b)\nc)")) ≠
      normalize_network_name_for_config (str "(a\n(b)\nc)") := by decide

/-- C7 (amended). The normaliser is idempotent on every input whose
normalisation lands in the canonical name set (alias values, preference
entries, `UNKNOWN_NETWORK`) — in particular every canonical network name is
a fixed point — and it is canonical over the known aliases: `ETH`,
`Ethereum` and `ETH(ERC20)` all normalise to `ERC20`. -/
theorem C7_normalize_idempotent_on_canonical :
    (∀ x : Str, normalize_network_name_for_config x ∈ canonicalNetworkNames →
      normalize_network_name_for_config (normalize_network_name_for_config x) =
        normalize_network_name_for_config x) ∧
    normalize_network_name_for_config (str "ETH") = str "ERC20" ∧
    normalize_network_name_for_config (str "Ethereum") = str "ERC20" ∧
    normalize_network_name_for_config (str "ETH(ERC20)") = str "ERC20" := by
  refine ⟨?_, by decide, by decide, by decide⟩
  intro x hx
  exact canonicalNetworkNames_fixed _ hx

/-- Witness for the amended C7 theorem at the concrete input `"ETH"`. -/
theorem C7_normalize_idempotent_on_canonical_witness :
    normalize_network_name_for_config (str "ETH") ∈ canonicalNetworkNames ∧
    normalize_network_name_for_config (normalize_network_name_for_config (str "ETH")) =
      normalize_network_name_for_config (str "ETH") :=
  ⟨by decide, C7_normalize_idempotent_on_canonical.1 (str "ETH") (by decide)⟩

/-! ### Concrete scan data used by the C1 witness. -/

/-- Ticker on the buy venue: ask 100, bid 99. -/
def tW1 : TickerData := ⟨some 100, some 99, none, none⟩

/-- Ticker on the sell venue: ask 105, bid 104. -/
def tW2 : TickerData := ⟨some 105, some 104, none, none⟩

/-- One common-pair scan entry for `BTC/USDT`. -/
def eW : ScanEntry := ⟨str "binance", str "kucoin", str "BTC/USDT", some tW1, some tW2⟩

/-- The expected gross opportunity of that scan (gross 4%). -/
def oW : ArbitrageOpportunity :=
  ⟨str "binance", str "kucoin", str "BTC/USDT", 100, 104, (104 - 100) / 100 * 100, 0, false⟩

/-- The scan over `eW` produces exactly `oW`. -/
theorem scan_once_eW : scan_once [eW] = [oW] := by
  have hlev : is_leveraged_token
      ((str "BTC/USDT").takeWhile (fun x => !decide (x = '/'))) = false := by decide
  have hm1 : mkGrossOpportunity (str "binance") (str "kucoin") (str "BTC/USDT") tW1 tW2 =
      some oW := by
    unfold mkGrossOpportunity get_relevant_price tW1 tW2 oW
    norm_num [MIN_PROFIT_THRESHOLD_GROSS, MAX_PROFIT_THRESHOLD]
  have hm2 : mkGrossOpportunity (str "kucoin") (str "binance") (str "BTC/USDT") tW2 tW1 =
      none := by
    unfold mkGrossOpportunity get_relevant_price tW1 tW2
    norm_num
  simp [scan_once, scanSymbol, eW, hlev, hm1, hm2]

/-- Witness for C1 at the concrete scan `[eW]`. -/
theorem C1_scan_once_gross_invariants_witness :
    0 < oW.buy_price ∧ oW.buy_price < oW.sell_price ∧
    oW.gross_profit_pct = (oW.sell_price - oW.buy_price) / oW.buy_price * 100 ∧
    MIN_PROFIT_THRESHOLD_GROSS ≤ oW.gross_profit_pct ∧
    oW.gross_profit_pct ≤ MAX_PROFIT_THRESHOLD :=
  (C1_scan_once_gross_invariants.1 [eW] oW (by rw [scan_once_eW]; exact List.mem_singleton.mpr rfl)).1

/-! ### Analyzer stability tracking (`Analyzer._update_stability_counts`). -/

/-- `Config.STABILITY_CYCLES = 1`. -/
def STABILITY_CYCLES : ℕ := 1

/-- The stability table `Analyzer.stable_candidates`, keyed by unique id
(a Python `dict`, insertion-ordered). -/
abbrev StabilityTable := List (Str × ArbitrageOpportunity)

/-- In-place update of the value at key `k` (Python `dict[k] = ...` on an
existing key keeps the position). -/
def updateEntry (table : List (Str × α)) (k : Str) (f : α → α) : List (Str × α) :=
  table.map (fun kv => if kv.1 = k then (kv.1, f kv.2) else kv)

/-- Bump a seen identity: increment its count and refresh its prices. -/
def bumpEntry (entry opp : ArbitrageOpportunity) : ArbitrageOpportunity :=
  { entry with
    stability_count := entry.stability_count + 1,
    buy_price := opp.buy_price,
    sell_price := opp.sell_price,
    gross_profit_pct := opp.gross_profit_pct }

/-- `if count >= STABILITY_CYCLES: is_stable = True`. -/
def markStable (x : ArbitrageOpportunity) : ArbitrageOpportunity :=
  if STABILITY_CYCLES ≤ x.stability_count then { x with is_stable := true } else x

/-- The per-opportunity body of the first loop of
`_update_stability_counts`: bump and refresh a seen identity, or insert a
new one at count 1; then mark it stable when the count reaches
`STABILITY_CYCLES`. -/
def stabilityStep (table : StabilityTable) (opp : ArbitrageOpportunity) : StabilityTable :=
  let uid := get_unique_id opp
  match alookup table uid with
  | some entry => updateEntry table uid (fun _ => markStable (bumpEntry entry opp))
  | none => table ++ [(uid, markStable { opp with stability_count := 1 })]

/-- `Analyzer._update_stability_counts`: fold the scan's opportunities into
the table, then evict every identity not present in the current scan. -/
def update_stability_counts (table : StabilityTable)
    (current_scan : List ArbitrageOpportunity) : StabilityTable :=
  (current_scan.foldl stabilityStep table).filter
    (fun kv => (current_scan.map get_unique_id).contains kv.1)

/-- `alookup` over an append tries the left list first. -/
theorem alookup_append [DecidableEq κ] (l₁ l₂ : List (κ × α)) (k : κ) :
    alookup (l₁ ++ l₂) k =
      match alookup l₁ k with
      | some v => some v
      | none => alookup l₂ k := by
  induction l₁ with
  | nil => rfl
  | cons kv rest ih =>
    obtain ⟨a, b⟩ := kv
    by_cases h : a = k
    · simp [alookup, h]
    · simp [alookup, h, ih]

/-- `alookup` after a key-respecting filter. -/
theorem alookup_filter [DecidableEq κ] (p : κ → Bool) (l : List (κ × α)) (k : κ) :
    alookup (l.filter (fun kv => p kv.1)) k =
      if p k then alookup l k else none := by
  induction l with
  | nil => simp [alookup]
  | cons kv rest ih =>
    obtain ⟨a, b⟩ := kv
    by_cases hk : a = k
    · subst hk
      by_cases hp : p a
      · simp [hp, alookup, ih]
      · rw [List.filter_cons, if_neg (by simp [hp]), ih]
        simp [hp]
    · by_cases hp : p a
      · rw [List.filter_cons, if_pos (by simp [hp])]
        simp [alookup, hk, ih]
      · rw [List.filter_cons, if_neg (by simp [hp]), ih]
        by_cases hpk : p k
        · simp [hpk, alookup, hk]
        · simp [hpk]

/-- `updateEntry` does not change lookups at other keys. -/
theorem alookup_updateEntry_ne (table : List (Str × α)) (k k' : Str)
    (f : α → α) (h : k' ≠ k) :
    alookup (updateEntry table k f) k' = alookup table k' := by
  induction table with
  | nil => rfl
  | cons kv rest ih =>
    obtain ⟨a, b⟩ := kv
    show alookup ((if (a, b).1 = k then ((a, b).1, f (a, b).2) else (a, b)) ::
      updateEntry rest k f) k' = alookup ((a, b) :: rest) k'
    by_cases hk : a = k
    · have ha : ¬ a = k' := fun he => h (he ▸ hk)
      rw [if_pos hk]
      simp only [alookup]
      rw [if_neg ha, if_neg ha, ih]
    · rw [if_neg hk]
      simp only [alookup]
      rw [ih]

/-- `updateEntry` rewrites the looked-up value at the updated key. -/
theorem alookup_updateEntry_self (table : List (Str × α)) (k : Str)
    (f : α → α) (e : α) (h : alookup table k = some e) :
    alookup (updateEntry table k f) k = some (f e) := by
  induction table with
  | nil => cases h
  | cons kv rest ih =>
    obtain ⟨a, b⟩ := kv
    simp only [alookup] at h
    show alookup ((if (a, b).1 = k then ((a, b).1, f (a, b).2) else (a, b)) ::
      updateEntry rest k f) k = some (f e)
    by_cases hk : a = k
    · rw [if_pos hk] at h
      rw [if_pos hk]
      simp only [alookup]
      rw [if_pos hk, Option.some.inj h]
    · rw [if_neg hk] at h
      rw [if_neg hk]
      simp only [alookup]
      rw [if_neg hk]
      exact ih h

/-- `markStable` only (possibly) changes `is_stable`. -/
theorem markStable_fields (x : ArbitrageOpportunity) :
    (markStable x).stability_count = x.stability_count ∧
    (markStable x).buy_price = x.buy_price ∧
    (markStable x).sell_price = x.sell_price ∧
    (markStable x).gross_profit_pct = x.gross_profit_pct := by
  unfold markStable
  split_ifs <;> exact ⟨rfl, rfl, rfl, rfl⟩

/-- A successful `alookup` is a membership. -/
theorem alookup_mem [DecidableEq κ] (l : List (κ × α)) (k : κ) (v : α)
    (h : alookup l k = some v) : (k, v) ∈ l := by
  induction l with
  | nil => cases h
  | cons kv rest ih =>
    obtain ⟨a, b⟩ := kv
    simp only [alookup] at h
    by_cases hk : a = k
    · rw [if_pos hk] at h
      subst hk
      rw [Option.some.inj h]
      exact List.mem_cons_self _ _
    · rw [if_neg hk] at h
      exact List.mem_cons_of_mem _ (ih h)

/-- `stabilityStep` does not change lookups at keys other than the
opportunity's identity. -/
theorem stabilityStep_alookup_ne (table : StabilityTable) (opp : ArbitrageOpportunity)
    (k : Str) (h : k ≠ get_unique_id opp) :
    alookup (stabilityStep table opp) k = alookup table k := by
  unfold stabilityStep
  dsimp only
  cases hl : alookup table (get_unique_id opp) with
  | some entry =>
    exact alookup_updateEntry_ne table (get_unique_id opp) k _ h
  | none =>
    rw [alookup_append]
    cases hk : alookup table k with
    | some v => rfl
    | none =>
      simp only [alookup]
      rw [if_neg (fun he => h he.symm)]

/-- Folding a batch of opportunities whose identities all differ from `k`
leaves the lookup at `k` unchanged. -/
theorem foldl_stabilityStep_alookup_ne (opps : List ArbitrageOpportunity)
    (table : StabilityTable) (k : Str) (h : ∀ o ∈ opps, k ≠ get_unique_id o) :
    alookup (opps.foldl stabilityStep table) k = alookup table k := by
  induction opps generalizing table with
  | nil => rfl
  | cons o rest ih =>
    rw [List.foldl_cons, ih _ (fun o' ho' => h o' (List.mem_cons_of_mem _ ho')),
      stabilityStep_alookup_ne _ _ _ (h o (List.mem_cons_self _ _))]

/-- The table invariant of C4: an entry is marked stable iff its count has
reached `STABILITY_CYCLES`. -/
def stableInv (table : StabilityTable) : Prop :=
  ∀ kv ∈ table, kv.2.is_stable = true ↔ STABILITY_CYCLES ≤ kv.2.stability_count

/-- `stabilityStep` preserves the stability invariant, for a fresh scan
opportunity (`is_stable = false`, as the scanner produces them). -/
theorem stabilityStep_stableInv (table : StabilityTable) (opp : ArbitrageOpportunity)
    (hfresh : opp.is_stable = false) (hinv : stableInv table) :
    stableInv (stabilityStep table opp) := by
  unfold stabilityStep
  dsimp only
  cases hl : alookup table (get_unique_id opp) with
  | some entry =>
    intro kv hkv
    unfold updateEntry at hkv
    rw [List.mem_map] at hkv
    obtain ⟨kv₀, hkv₀, heq⟩ := hkv
    by_cases hk : kv₀.1 = get_unique_id opp
    · rw [if_pos hk] at heq
      subst heq
      show (markStable (bumpEntry entry opp)).is_stable = true ↔
        STABILITY_CYCLES ≤ (markStable (bumpEntry entry opp)).stability_count
      unfold markStable
      split_ifs with hsc
      · simpa using hsc
      · have hc : (bumpEntry entry opp).stability_count = entry.stability_count + 1 := rfl
        have hstable : (bumpEntry entry opp).is_stable = entry.is_stable := rfl
        rw [hstable, hc]
        have hent := hinv (get_unique_id opp, entry) (alookup_mem _ _ _ hl)
        simp only at hent
        rw [hc] at hsc
        constructor
        · intro hst
          exact absurd (Nat.le_succ_of_le (hent.mp hst)) hsc
        · intro hle
          exact absurd hle hsc
    · rw [if_neg hk] at heq
      subst heq
      exact hinv kv₀ hkv₀
  | none =>
    intro kv hkv
    rw [List.mem_append] at hkv
    cases hkv with
    | inl h₀ => exact hinv kv h₀
    | inr h₁ =>
      rw [List.mem_singleton] at h₁
      subst h₁
      show (markStable { opp with stability_count := 1 }).is_stable = true ↔
        STABILITY_CYCLES ≤ (markStable { opp with stability_count := 1 }).stability_count
      unfold markStable
      split_ifs with hsc
      · simpa using hsc
      · simpa [hfresh] using fun h => hsc h

/-- Folding a scan of fresh opportunities preserves the stability
invariant. -/
theorem foldl_stabilityStep_stableInv (opps : List ArbitrageOpportunity)
    (table : StabilityTable) (hfresh : ∀ o ∈ opps, o.is_stable = false)
    (hinv : stableInv table) :
    stableInv (opps.foldl stabilityStep table) := by
  induction opps generalizing table with
  | nil => exact hinv
  | cons o rest ih =>
    rw [List.foldl_cons]
    exact ih _ (fun o' ho' => hfresh o' (List.mem_cons_of_mem _ ho'))
      (stabilityStep_stableInv _ _ (hfresh o (List.mem_cons_self _ _)) hinv)

/-- Splitting a fold of the stability step at a member with a unique
identity: the final lookup at that identity is decided by the step at that
member, applied to a table that still looks up that identity like the
original table. -/
theorem foldl_stabilityStep_at (table : StabilityTable)
    (opps : List ArbitrageOpportunity) (hnd : (opps.map get_unique_id).Nodup)
    (o : ArbitrageOpportunity) (ho : o ∈ opps) :
    ∃ t₁ : StabilityTable,
      alookup t₁ (get_unique_id o) = alookup table (get_unique_id o) ∧
      alookup (opps.foldl stabilityStep table) (get_unique_id o) =
        alookup (stabilityStep t₁ o) (get_unique_id o) := by
  obtain ⟨pre, post, rfl⟩ := List.append_of_mem ho
  rw [List.map_append, List.map_cons, List.nodup_append] at hnd
  obtain ⟨hnd1, hnd2, hdisj⟩ := hnd
  have hpre : ∀ o' ∈ pre, get_unique_id o ≠ get_unique_id o' := fun o' ho' heq =>
    hdisj (List.mem_map_of_mem _ ho') (by rw [← heq]; exact List.mem_cons_self _ _)
  have hpost : ∀ o' ∈ post, get_unique_id o ≠ get_unique_id o' := fun o' ho' heq =>
    (List.nodup_cons.mp hnd2).1 (by rw [heq]; exact List.mem_map_of_mem _ ho')
  refine ⟨pre.foldl stabilityStep table,
    foldl_stabilityStep_alookup_ne pre table _ hpre, ?_⟩
  rw [List.foldl_append, List.foldl_cons]
  exact foldl_stabilityStep_alookup_ne post _ _ hpost

/-- C4. One stability update: a seen identity's count is incremented and
its prices refreshed; a new identity is inserted with count 1; an identity
absent from the current scan is absent from the table afterwards; and after
the update an entry is marked stable iff its count has reached
`STABILITY_CYCLES`. (Hypotheses: the scan list has pairwise distinct
identities and scanner-fresh `is_stable = false` flags, and the incoming
table satisfies the stability invariant.) -/
theorem C4_update_stability_counts
    (table : StabilityTable) (opps : List ArbitrageOpportunity)
    (hnd : (opps.map get_unique_id).Nodup)
    (hfresh : ∀ o ∈ opps, o.is_stable = false)
    (hinv : stableInv table) :
    (∀ o ∈ opps, ∀ e, alookup table (get_unique_id o) = some e →
      ∃ e', alookup (update_stability_counts table opps) (get_unique_id o) = some e' ∧
        e'.stability_count = e.stability_count + 1 ∧
        e'.buy_price = o.buy_price ∧ e'.sell_price = o.sell_price ∧
        e'.gross_profit_pct = o.gross_profit_pct) ∧
    (∀ o ∈ opps, alookup table (get_unique_id o) = none →
      ∃ e', alookup (update_stability_counts table opps) (get_unique_id o) = some e' ∧
        e'.stability_count = 1) ∧
    (∀ k : Str, k ∉ opps.map get_unique_id →
      alookup (update_stability_counts table opps) k = none) ∧
    stableInv (update_stability_counts table opps) := by
  refine ⟨?_, ?_, ?_, ?_⟩
  · intro o ho e he
    obtain ⟨t₁, ht₁, hfold⟩ := foldl_stabilityStep_at table opps hnd o ho
    have h1 : alookup t₁ (get_unique_id o) = some e := ht₁.trans he
    have h2 : alookup (stabilityStep t₁ o) (get_unique_id o) =
        some (markStable (bumpEntry e o)) := by
      unfold stabilityStep
      dsimp only
      rw [h1]
      exact alookup_updateEntry_self _ _ _ e h1
    refine ⟨markStable (bumpEntry e o), ?_, ?_, ?_, ?_, ?_⟩
    · unfold update_stability_counts
      rw [alookup_filter, if_pos (by simpa using List.mem_map_of_mem get_unique_id ho),
        hfold, h2]
    · rw [(markStable_fields _).1]; rfl
    · rw [(markStable_fields _).2.1]; rfl
    · rw [(markStable_fields _).2.2.1]; rfl
    · rw [(markStable_fields _).2.2.2]; rfl
  · intro o ho he
    obtain ⟨t₁, ht₁, hfold⟩ := foldl_stabilityStep_at table opps hnd o ho
    have h1 : alookup t₁ (get_unique_id o) = none := ht₁.trans he
    have h2 : alookup (stabilityStep t₁ o) (get_unique_id o) =
        some (markStable { o with stability_count := 1 }) := by
      unfold stabilityStep
      dsimp only
      rw [h1]
      dsimp only
      rw [alookup_append, h1]
      simp [alookup]
    refine ⟨markStable { o with stability_count := 1 }, ?_, ?_⟩
    · unfold update_stability_counts
      rw [alookup_filter, if_pos (by simpa using List.mem_map_of_mem get_unique_id ho),
        hfold, h2]
    · rw [(markStable_fields _).1]
  · intro k hk
    unfold update_stability_counts
    rw [alookup_filter, if_neg (by simpa using hk)]
  · intro kv hkv
    unfold update_stability_counts at hkv
    rw [List.mem_filter] at hkv
    exact foldl_stabilityStep_stableInv opps table hfresh hinv kv hkv.1

/-- Witness for C4: inserting the concrete opportunity `oW` into an empty
stability table records it with count 1. -/
theorem C4_update_stability_counts_witness :
    ∃ e', alookup (update_stability_counts [] [oW]) (get_unique_id oW) = some e' ∧
      e'.stability_count = 1 :=
  (C4_update_stability_counts [] [oW] (by simp)
    (by intro o ho; rw [List.mem_singleton] at ho; subst ho; rfl)
    (by intro kv hkv; simp at hkv)).2.1 oW (List.mem_singleton.mpr rfl) rfl

/-! ### Executor (`Executor.execute_arbitrage`): buy-leg and sell-leg
finalisation. Only the log fields the executor's profit accounting touches
are modelled; parsing of the raw order responses is represented by the
already-parsed values the code derives (`actual_amount_bought_base_gross`,
`buy_fee_details_parsed`, `usdt_received_net`). -/

/-- The profit-accounting fields of `CompletedArbitrageLog`. -/
structure TradeLog where
  initial_buy_cost_usdt : Option ℚ
  net_base_asset_after_buy_fee : Option ℚ
  usdt_received_from_sell : Option ℚ
  final_net_profit_usdt : Option ℚ
  status : Str

/-- Buy-leg finalisation (source lines 4844-4864): fail on a missing or
zero fill, subtract the fee from the fill iff the parsed fee currency
equals the uppercased base asset, fail on a negligible net amount, and
otherwise record the cost, the net base amount and `BUY_LEG_FILLED`.
The parsed fee currency is uppercased at parse time in the source. -/
def buyLegFinalize (log : TradeLog) (base_asset : Str)
    (actual_amount_bought_base_gross : Option ℚ)
    (buy_fee_details_parsed : Option (Str × ℚ))
    (buy_order_cost_usdt : ℚ) : Option TradeLog :=
  match actual_amount_bought_base_gross with
  | none => none
  | some gross =>
    let net :=
      match buy_fee_details_parsed with
      | some (fee_currency, fee_cost) =>
        if fee_currency = pyUpper base_asset then gross - fee_cost else gross
      | none => gross
    if net ≤ DECIMAL_COMPARISON_EPSILON then none
    else some { log with
      initial_buy_cost_usdt := some buy_order_cost_usdt,
      net_base_asset_after_buy_fee := some net,
      status := str "BUY_LEG_FILLED" }

/-- Sell-leg finalisation (source lines 5080-5097): record the net quote
received; when the initial buy cost was recorded, set
`final_net_profit_usdt` to the exact difference and classify
`COMPLETED_SUCCESS` / `COMPLETED_LOSS` on its sign, otherwise
`COMPLETED_UNKNOWN_PROFIT`. -/
def sellLegFinalize (log : TradeLog) (usdt_received_net : ℚ) : TradeLog :=
  let log' := { log with usdt_received_from_sell := some usdt_received_net }
  match log'.initial_buy_cost_usdt with
  | some c =>
    let profit := usdt_received_net - c
    { log' with
      final_net_profit_usdt := some profit,
      status := if 0 < profit then str "COMPLETED_SUCCESS" else str "COMPLETED_LOSS" }
  | none => { log' with status := str "COMPLETED_UNKNOWN_PROFIT" }

/-- A filled buy leg always records the order cost. -/
theorem buyLegFinalize_cost (log : TradeLog) (base_asset : Str)
    (grossOpt : Option ℚ) (fee : Option (Str × ℚ)) (cost : ℚ) (log' : TradeLog)
    (h : buyLegFinalize log base_asset grossOpt fee cost = some log') :
    log'.initial_buy_cost_usdt = some cost := by
  unfold buyLegFinalize at h
  cases grossOpt with
  | none => cases h
  | some gross =>
    dsimp only at h
    split_ifs at h
    rw [← Option.some.inj h]

/-- C5. For every execution whose buy leg filled (which is the case for
every execution reaching a `COMPLETED_*` status, since the sell leg only
runs after the buy leg), the sell-leg finalisation records
`usdt_received_from_sell`, sets `final_net_profit_usdt` exactly to
`usdt_received_from_sell - initial_buy_cost_usdt`, ends in
`COMPLETED_SUCCESS` or `COMPLETED_LOSS` (never `COMPLETED_UNKNOWN_PROFIT`),
and the status is `COMPLETED_SUCCESS` iff that difference is strictly
positive. -/
theorem C5_completed_final_profit :
    ∀ (log : TradeLog) (base_asset : Str) (grossOpt : Option ℚ)
      (fee : Option (Str × ℚ)) (cost : ℚ) (log' : TradeLog) (received : ℚ),
      buyLegFinalize log base_asset grossOpt fee cost = some log' →
      ((sellLegFinalize log' received).status = str "COMPLETED_SUCCESS" ∨
        (sellLegFinalize log' received).status = str "COMPLETED_LOSS") ∧
      (sellLegFinalize log' received).usdt_received_from_sell = some received ∧
      (sellLegFinalize log' received).final_net_profit_usdt = some (received - cost) ∧
      ((sellLegFinalize log' received).status = str "COMPLETED_SUCCESS" ↔
        0 < received - cost) := by
  intro log base_asset grossOpt fee cost log' received hbuy
  have hcost : log'.initial_buy_cost_usdt = some cost :=
    buyLegFinalize_cost log base_asset grossOpt fee cost log' hbuy
  unfold sellLegFinalize
  dsimp only
  rw [hcost]
  dsimp only
  by_cases hpos : 0 < received - cost
  · rw [if_pos hpos]
    exact ⟨Or.inl rfl, rfl, rfl, by simp [hpos]⟩
  · rw [if_neg hpos]
    refine ⟨Or.inr rfl, rfl, rfl, ?_⟩
    constructor
    · intro hs
      exact absurd hs (by decide)
    · intro hp
      exact absurd hp hpos

/-- C6. For every execution reaching `BUY_LEG_FILLED` (with an uppercase
base-asset code, as CCXT symbols provide): the recorded
`net_base_asset_after_buy_fee` equals the parsed filled amount minus the
parsed fee amount when the parsed fee currency equals the base asset, and
equals the parsed filled amount otherwise — including when no fee was
parsed. -/
theorem C6_net_base_after_buy_fee :
    ∀ (log : TradeLog) (base_asset : Str) (gross : ℚ)
      (fee : Option (Str × ℚ)) (cost : ℚ) (log' : TradeLog),
      pyUpper base_asset = base_asset →
      buyLegFinalize log base_asset (some gross) fee cost = some log' →
      log'.status = str "BUY_LEG_FILLED" ∧
      (fee = none → log'.net_base_asset_after_buy_fee = some gross) ∧
      (∀ fee_currency fee_cost, fee = some (fee_currency, fee_cost) →
        fee_currency = base_asset →
        log'.net_base_asset_after_buy_fee = some (gross - fee_cost)) ∧
      (∀ fee_currency fee_cost, fee = some (fee_currency, fee_cost) →
        fee_currency ≠ base_asset →
        log'.net_base_asset_after_buy_fee = some gross) := by
  intro log base_asset gross fee cost log' hupper h
  unfold buyLegFinalize at h
  cases fee with
  | none =>
    dsimp only at h
    split_ifs at h
    rw [← Option.some.inj h]
    refine ⟨rfl, fun _ => rfl, ?_, ?_⟩
    · intro c v hcv
      cases hcv
    · intro c v hcv
      cases hcv
  | some cv =>
    obtain ⟨fee_currency, fee_cost⟩ := cv
    dsimp only at h
    rw [hupper] at h
    by_cases hc : fee_currency = base_asset
    · rw [if_pos hc] at h
      split_ifs at h
      rw [← Option.some.inj h]
      refine ⟨rfl, ?_, ?_, ?_⟩
      · intro hn
        cases hn
      · intro c v hcv _
        cases Option.some.inj hcv
        rfl
      · intro c v hcv hne
        cases Option.some.inj hcv
        exact absurd hc hne
    · rw [if_neg hc] at h
      split_ifs at h
      rw [← Option.some.inj h]
      refine ⟨rfl, ?_, ?_, ?_⟩
      · intro hn
        cases hn
      · intro c v hcv hceq
        cases Option.some.inj hcv
        exact absurd hceq hc
      · intro c v hcv _
        rfl

/-- A fresh trade log (`status = "PENDING"`). -/
def logW0 : TradeLog := ⟨none, none, none, none, str "PENDING"⟩

/-- The log after a fee-less buy fill of 1 base for 100 quote. -/
def logW1 : TradeLog := ⟨some 100, some 1, none, none, str "BUY_LEG_FILLED"⟩

/-- The log after a buy fill of 1 base for 100 quote with a 0.001 base fee. -/
def logW2 : TradeLog := ⟨some 100, some (1 - 1/1000), none, none, str "BUY_LEG_FILLED"⟩

/-- The concrete fee-less buy fill used by the C5 witness. -/
theorem buyLegFinalize_logW1 :
    buyLegFinalize logW0 (str "BTC") (some 1) none 100 = some logW1 := by
  unfold buyLegFinalize logW0 logW1 DECIMAL_COMPARISON_EPSILON
  norm_num

/-- The concrete base-fee buy fill used by the C6 witness. -/
theorem buyLegFinalize_logW2 :
    buyLegFinalize logW0 (str "BTC") (some 1) (some (str "BTC", 1/1000)) 100 =
      some logW2 := by
  unfold buyLegFinalize logW0 logW2 DECIMAL_COMPARISON_EPSILON
  have : str "BTC" = pyUpper (str "BTC") := by decide
  rw [← this]
  norm_num

/-- Witness for C5 at a concrete profitable execution. -/
theorem C5_completed_final_profit_witness :
    ((sellLegFinalize logW1 104).status = str "COMPLETED_SUCCESS" ∨
      (sellLegFinalize logW1 104).status = str "COMPLETED_LOSS") ∧
    (sellLegFinalize logW1 104).usdt_received_from_sell = some 104 ∧
    (sellLegFinalize logW1 104).final_net_profit_usdt = some (104 - 100) ∧
    ((sellLegFinalize logW1 104).status = str "COMPLETED_SUCCESS" ↔
      0 < (104 : ℚ) - 100) :=
  C5_completed_final_profit logW0 (str "BTC") (some 1) none 100 logW1 104
    buyLegFinalize_logW1

/-- Witness for C6 at a concrete buy fill whose fee is paid in base. -/
theorem C6_net_base_after_buy_fee_witness :
    logW2.net_base_asset_after_buy_fee = some (1 - 1/1000) :=
  (C6_net_base_after_buy_fee logW0 (str "BTC") 1 (some (str "BTC", 1/1000)) 100 logW2
    (by decide) buyLegFinalize_logW2).2.2.1 (str "BTC") (1/1000) rfl rfl

/-! ### Rebalancer (`Rebalancer.transfer_asset_between_exchanges`):
the below-quantum guard. `_start_operation` registers the operation key and
`_end_operation` removes it in the `finally` block, so the returned
operation set equals the input set; the action trace records which
side-effecting calls were made, with `execute` abstracting
`_execute_asset_transfer` (deposit-address resolution, withdrawal
submission). -/

/-- Side-effecting steps of a cross-venue transfer. -/
inductive TransferAction
  | registerOperation (key : Str)
  | resolveDepositAddress
  | submitWithdrawal
deriving DecidableEq, Repr

/-- `Rebalancer.transfer_asset_between_exchanges` (source lines
3964-3993): quantise the amount down to the asset's inferred quantum
(`places` fractional digits), abort when the result is at most
`DECIMAL_COMPARISON_EPSILON`, otherwise register the operation and run
`_execute_asset_transfer` on the quantized amount (the operation is
de-registered in `finally`). -/
def transfer_asset_between_exchanges (active_operations : List Str)
    (amount : ℚ) (places : ℕ) (op_key : Str)
    (execute : ℚ → Bool × List TransferAction) :
    Bool × List Str × List TransferAction :=
  let quantized_amount := quantDownPlaces amount places
  if quantized_amount ≤ DECIMAL_COMPARISON_EPSILON then (false, active_operations, [])
  else if active_operations.contains op_key then (false, active_operations, [])
  else
    let r := execute quantized_amount
    (r.1, active_operations, TransferAction.registerOperation op_key :: r.2)

/-- C10. If the requested amount quantised down to the asset's inferred
transfer quantum is at most `DECIMAL_COMPARISON_EPSILON = 1e-8`, the call
fails without registering a `RebalanceOperation`, without resolving a
deposit address and without submitting a withdrawal: the operation set is
unchanged and the action trace is empty, whatever
`_execute_asset_transfer` would have done. -/
theorem C10_transfer_below_quantum_no_action :
    ∀ (active_operations : List Str) (amount : ℚ) (places : ℕ) (op_key : Str)
      (execute : ℚ → Bool × List TransferAction),
      quantDownPlaces amount places ≤ DECIMAL_COMPARISON_EPSILON →
      transfer_asset_between_exchanges active_operations amount places op_key execute =
        (false, active_operations, []) := by
  intro active_operations amount places op_key execute h
  unfold transfer_asset_between_exchanges
  rw [if_pos h]

/-- Witness for C10: a 1e-9 transfer request quantised to 8 decimal places
performs no action, even though the abstract transfer body would have
submitted a withdrawal. -/
theorem C10_transfer_below_quantum_no_action_witness :
    transfer_asset_between_exchanges [] (1/1000000000) 8
        (str "USDT_binance_to_kucoin_0.00000000")
        (fun _ => (true, [TransferAction.submitWithdrawal])) =
      (false, [], []) :=
  C10_transfer_below_quantum_no_action [] (1/1000000000) 8
    (str "USDT_binance_to_kucoin_0.00000000")
    (fun _ => (true, [TransferAction.submitWithdrawal]))
    (by norm_num [quantDownPlaces, ratTrunc, DECIMAL_COMPARISON_EPSILON])

/-! ### BalanceManager: aggregation and USD valuation. -/

/-- `Config.ESTIMATED_ASSET_PRICES_USD` (transcribed). -/
def ESTIMATED_ASSET_PRICES_USD : List (Str × ℚ) := [
  (str "USDT", 1.0), (str "USDC", 1.0), (str "DAI", 1.0), (str "FDUSD", 1.0),
  (str "ETH", 3500.0), (str "BTC", 65000.0), (str "BNB", 600.0), (str "SOL", 150.0),
  (str "MTL", 0.65), (str "HAI", 0.0095), (str "MLT", 0.0106),
  (str "LUNA", 0.135), (str "BONK", 0.000011), (str "KLV", 0.003),
  (str "SNS", 0.1), (str "MAN", 0.02), (str "COTI", 0.1), (str "KMD", 0.3),
  (str "LBR", 0.2), (str "OBI", 0.005), (str "SWASH", 0.015), (str "BEAM", 0.03),
  (str "CGPU", 0.3), (str "HDRO", 0.05), (str "HOLDSTATION", 1.0), (str "JOYSTREAM", 0.01),
  (str "KP3R", 70.0), (str "LOBO", 0.00001), (str "POLC", 0.01), (str "RINGAI", 0.1),
  (str "SWAP", 0.15), (str "UMB", 0.02), (str "WNXM", 30.0), (str "SRM", 0.04),
  (str "GEL", 0.5), (str "ACM", 2.5), (str "CLV", 0.03), (str "TIDAL", 0.0002), (str "NAVI", 0.05),
  (str "KOKO", 0.001), (str "PAW", 0.0000002), (str "RLY", 0.01), (str "SMURFCAT", 0.00003),
  (str "XNA", 0.003), (str "TROLL", 0.00000003), (str "UOS", 0.15), (str "FISHW", 0.02),
  (str "MTR", 1.0), (str "MTRG", 1.0), (str "THN", 0.002), (str "NETVR", 0.04), (str "BSX", 0.0005),
  (str "GAMESTOP", 0.005), (str "SKYA", 0.1), (str "TRADE", 0.07), (str "KISHU", 0.0000000004),
  (str "MGO", 0.02), (str "RWA", 0.2), (str "HYVE", 0.03), (str "CLH", 0.01),
  (str "OOKI", 0.002), (str "STRM", 0.015), (str "POLK", 0.03), (str "REVU", 0.02),
  (str "XCV", 0.004), (str "SAHARA", 0.1), (str "MINT", 0.001), (str "PBX", 0.003),
  (str "EVMOS", 0.03), (str "DEFAI", 0.1), (str "UPO", 0.05), (str "GAT", 0.02),
  (str "ADA", 0.40)]

/-- `Config.QUOTE_ASSET = "USDT"`. -/
def QUOTE_ASSET : Str := str "USDT"

/-- The stablecoin set of `BalanceManager._update_all_usd_values`. -/
def STABLECOINS : List Str := [
  str "USDT", str "USDC", str "DAI", str "BUSD", str "TUSD", str "FDUSD",
  str "USDP", str "AEUR", str "USTC", str "PYUSD", str "USDE"]

/-- One asset row of one `fetch_balance` response, as parsed by the
standard branch of `_fetch_single_exchange_aggregated_balance`: the
`total` amount, and the `free`/`used` fields (absent entries fall back to
`'0'`). -/
structure FetchRecord where
  asset : Str
  total : ℚ
  free : Option ℚ
  used : Option ℚ

/-- Aggregated per-asset amounts (`temp_assets_sum` entries). -/
structure AssetAmounts where
  free : ℚ
  used : ℚ
  total : ℚ
deriving DecidableEq, Repr

/-- Fold one fetched row into `temp_assets_sum`: rows whose total is at
most the comparison epsilon are ignored; otherwise `free`, `used` and
`total` are summed under the uppercased asset key. -/
def addBalanceRecord (m : List (Str × AssetAmounts)) (r : FetchRecord) :
    List (Str × AssetAmounts) :=
  if DECIMAL_COMPARISON_EPSILON < r.total then
    let key := pyUpper r.asset
    match alookup m key with
    | some _ => updateEntry m key (fun a' =>
        ⟨a'.free + r.free.getD 0, a'.used + r.used.getD 0, a'.total + r.total⟩)
    | none => m ++ [(key, ⟨r.free.getD 0, r.used.getD 0, r.total⟩)]
  else m

/-- `BalanceManager._fetch_single_exchange_aggregated_balance` (standard
parsing branch) over the per-account-type `fetch_balance` results: sum the
rows, then keep only assets with a positive total. -/
def fetch_single_exchange_aggregated_balance
    (query_results : List (List FetchRecord)) : List (Str × AssetAmounts) :=
  (query_results.foldl (fun m rs => rs.foldl addBalanceRecord m) []).filter
    (fun kv => decide (DECIMAL_COMPARISON_EPSILON < kv.2.total))

/-- The tail of the price-resolution cascade of `_update_all_usd_values`:
the holding venue's own ticker (`last or bid`, if positive), else the
`ESTIMATED_ASSET_PRICES_USD` entry, else zero. `cacheLast` and `localPrice`
throughout give the two ticker reads for the `ASSET/USDT` pair of each
uppercased asset code. -/
def assetUsdValueFallback (localPrice : Str → Option ℚ) (asset_code_upper : Str)
    (amounts : AssetAmounts) : ℚ :=
  match localPrice asset_code_upper with
  | some p =>
    if 0 < p then amounts.total * p
    else
      match alookup ESTIMATED_ASSET_PRICES_USD asset_code_upper with
      | some est => amounts.total * est
      | none => 0
  | none =>
    match alookup ESTIMATED_ASSET_PRICES_USD asset_code_upper with
    | some est => amounts.total * est
    | none => 0

/-- The unrounded USD value of one asset holding (continued): quote or
stablecoin at face value, else the cached reference-venue ticker if
positive, else the fallbacks above. -/
def assetUsdValueRaw (cacheLast localPrice : Str → Option ℚ)
    (asset_code : Str) (amounts : AssetAmounts) : ℚ :=
  let asset_code_upper := pyUpper asset_code
  if asset_code_upper = pyUpper QUOTE_ASSET ∨ asset_code_upper ∈ STABLECOINS then
    amounts.total
  else
    match cacheLast asset_code_upper with
    | some p =>
      if 0 < p then amounts.total * p
      else assetUsdValueFallback localPrice asset_code_upper amounts
    | none => assetUsdValueFallback localPrice asset_code_upper amounts

/-- Per-asset amounts with the recorded (cent-rounded) USD value. -/
structure AssetAmountsUsd where
  free : ℚ
  used : ℚ
  total : ℚ
  usd_value : ℚ
deriving DecidableEq, Repr

/-- The fields of `ExchangeBalance` populated by a snapshot with USD
valuation. -/
structure ExchangeBalanceModel where
  assets : List (Str × AssetAmountsUsd)
  total_usd : ℚ

/-- `BalanceManager._update_all_usd_values` for one exchange: each asset's
recorded `usd_value` is its unrounded value rounded down to a cent, while
`total_usd` is the sum of the *unrounded* values rounded down to a cent. -/
def update_all_usd_values (cacheLast localPrice : Str → Option ℚ)
    (assets : List (Str × AssetAmounts)) : ExchangeBalanceModel :=
  ⟨assets.map (fun kv =>
      (kv.1, ⟨kv.2.free, kv.2.used, kv.2.total,
        quantDown2 (assetUsdValueRaw cacheLast localPrice kv.1 kv.2)⟩)),
    quantDown2 ((assets.map
      (fun kv => assetUsdValueRaw cacheLast localPrice kv.1 kv.2)).sum)⟩

/-- A `BalanceManager.get_all_balances(calculate_usd_values=True)` snapshot
of one exchange. -/
def snapshotExchangeBalance (query_results : List (List FetchRecord))
    (cacheLast localPrice : Str → Option ℚ) : ExchangeBalanceModel :=
  update_all_usd_values cacheLast localPrice
    (fetch_single_exchange_aggregated_balance query_results)

/-- For nonnegative inputs the truncation is the floor. -/
theorem ratTrunc_of_nonneg (x : ℚ) (h : 0 ≤ x) : ratTrunc x = ⌊x⌋ := if_pos h

/-- Cent-rounding-down is superadditive on nonnegative values. -/
theorem quantDown2_add_le (x y : ℚ) (hx : 0 ≤ x) (hy : 0 ≤ y) :
    quantDown2 x + quantDown2 y ≤ quantDown2 (x + y) := by
  unfold quantDown2
  rw [ratTrunc_of_nonneg _ (by positivity), ratTrunc_of_nonneg _ (by positivity),
    ratTrunc_of_nonneg _ (by positivity)]
  rw [div_add_div_same, div_le_div_iff_of_pos_right (by norm_num : (0:ℚ) < 100)]
  have hle : ⌊x * 100⌋ + ⌊y * 100⌋ ≤ ⌊(x + y) * 100⌋ := by
    apply Int.le_floor.mpr
    push_cast
    have h1 := Int.floor_le (x * 100)
    have h2 := Int.floor_le (y * 100)
    linarith
  exact_mod_cast hle

/-- Summing cent-rounded values of nonnegative inputs stays below the
cent-rounded sum. -/
theorem sum_quantDown2_le (l : List ℚ) (h : ∀ x ∈ l, 0 ≤ x) :
    (l.map quantDown2).sum ≤ quantDown2 l.sum := by
  induction l with
  | nil =>
    simp [quantDown2, ratTrunc]
  | cons x xs ih =>
    rw [List.map_cons, List.sum_cons, List.sum_cons]
    have hx : 0 ≤ x := h x (List.mem_cons_self _ _)
    have hxs : ∀ y ∈ xs, 0 ≤ y := fun y hy => h y (List.mem_cons_of_mem _ hy)
    calc quantDown2 x + (xs.map quantDown2).sum
        ≤ quantDown2 x + quantDown2 xs.sum := by
          exact add_le_add_left (ih hxs) _
      _ ≤ quantDown2 (x + xs.sum) :=
          quantDown2_add_le _ _ hx (List.sum_nonneg hxs)

/-- Aggregation invariant: every aggregated asset has `free ≤ total`. -/
def freeLeTotal (m : List (Str × AssetAmounts)) : Prop :=
  ∀ kv ∈ m, kv.2.free ≤ kv.2.total

/-- One fetched row with `free ≤ total` preserves the aggregation
invariant. -/
theorem addBalanceRecord_freeLeTotal (m : List (Str × AssetAmounts))
    (r : FetchRecord) (hr : r.free.getD 0 ≤ r.total) (hm : freeLeTotal m) :
    freeLeTotal (addBalanceRecord m r) := by
  unfold addBalanceRecord
  dsimp only
  split_ifs with htot
  · cases halo : alookup m (pyUpper r.asset) with
    | some a =>
      intro kv hkv
      dsimp only at hkv
      unfold updateEntry at hkv
      rw [List.mem_map] at hkv
      obtain ⟨kv₀, hkv₀, heq⟩ := hkv
      by_cases hk : kv₀.1 = pyUpper r.asset
      · rw [if_pos hk] at heq
        subst heq
        have := hm kv₀ hkv₀
        show kv₀.2.free + r.free.getD 0 ≤ kv₀.2.total + r.total
        exact add_le_add this hr
      · rw [if_neg hk] at heq
        subst heq
        exact hm kv₀ hkv₀
    | none =>
      intro kv hkv
      dsimp only at hkv
      rw [List.mem_append] at hkv
      cases hkv with
      | inl h₀ => exact hm kv h₀
      | inr h₁ =>
        rw [List.mem_singleton] at h₁
        subst h₁
        exact hr
  · exact hm

/-- Folding any set of rows with `free ≤ total` preserves the invariant. -/
theorem foldl_addBalanceRecord_freeLeTotal (rs : List FetchRecord)
    (m : List (Str × AssetAmounts)) (hr : ∀ r ∈ rs, r.free.getD 0 ≤ r.total)
    (hm : freeLeTotal m) : freeLeTotal (rs.foldl addBalanceRecord m) := by
  induction rs generalizing m with
  | nil => exact hm
  | cons r rest ih =>
    rw [List.foldl_cons]
    exact ih _ (fun r' h' => hr r' (List.mem_cons_of_mem _ h'))
      (addBalanceRecord_freeLeTotal m r (hr r (List.mem_cons_self _ _)) hm)

/-- The whole aggregation preserves `free ≤ total`. -/
theorem aggregated_freeLeTotal (query_results : List (List FetchRecord))
    (hr : ∀ rs ∈ query_results, ∀ r ∈ rs, r.free.getD 0 ≤ r.total) :
    freeLeTotal (fetch_single_exchange_aggregated_balance query_results) := by
  unfold fetch_single_exchange_aggregated_balance
  intro kv hkv
  rw [List.mem_filter] at hkv
  refine ?_
  have hfold : freeLeTotal
      (query_results.foldl (fun m rs => rs.foldl addBalanceRecord m) []) := by
    have : ∀ (qrs : List (List FetchRecord)) (m : List (Str × AssetAmounts)),
        (∀ rs ∈ qrs, ∀ r ∈ rs, r.free.getD 0 ≤ r.total) → freeLeTotal m →
        freeLeTotal (qrs.foldl (fun m rs => rs.foldl addBalanceRecord m) m) := by
      intro qrs
      induction qrs with
      | nil => intro m _ hm; exact hm
      | cons rs rest ih =>
        intro m hq hm
        rw [List.foldl_cons]
        exact ih _ (fun rs' h' => hq rs' (List.mem_cons_of_mem _ h'))
          (foldl_addBalanceRecord_freeLeTotal rs m
            (hq rs (List.mem_cons_self _ _)) hm)
    exact this query_results [] hr (fun kv h => by cases h)
  exact hfold kv hkv.1

/-- C8 (amended). For every exchange balance produced by a snapshot with
USD valuation: `total_usd` is the *sum of the unrounded per-asset USD
values* rounded down to a cent — not the sum of the recorded (individually
cent-rounded) `usd_value` fields; when the per-asset values are
nonnegative, the sum of the recorded `usd_value` fields is at most
`total_usd`; and `free ≤ total` holds for every asset entry provided every
fetched balance row satisfies `free ≤ total`. -/
theorem C8_total_usd_and_free_le
    (query_results : List (List FetchRecord)) (cacheLast localPrice : Str → Option ℚ) :
    (snapshotExchangeBalance query_results cacheLast localPrice).total_usd =
      quantDown2 (((fetch_single_exchange_aggregated_balance query_results).map
        (fun kv => assetUsdValueRaw cacheLast localPrice kv.1 kv.2)).sum) ∧
    ((∀ kv ∈ fetch_single_exchange_aggregated_balance query_results,
        0 ≤ assetUsdValueRaw cacheLast localPrice kv.1 kv.2) →
      (((snapshotExchangeBalance query_results cacheLast localPrice).assets.map
        (fun kv => kv.2.usd_value)).sum ≤
        (snapshotExchangeBalance query_results cacheLast localPrice).total_usd)) ∧
    ((∀ rs ∈ query_results, ∀ r ∈ rs, r.free.getD 0 ≤ r.total) →
      ∀ kv ∈ (snapshotExchangeBalance query_results cacheLast localPrice).assets,
        kv.2.free ≤ kv.2.total) := by
  refine ⟨rfl, ?_, ?_⟩
  · intro hnn
    show ((((fetch_single_exchange_aggregated_balance query_results).map
        (fun kv => (kv.1, (⟨kv.2.free, kv.2.used, kv.2.total,
          quantDown2 (assetUsdValueRaw cacheLast localPrice kv.1 kv.2)⟩ :
            AssetAmountsUsd)))).map (fun kv => kv.2.usd_value)).sum ≤ _)
    rw [List.map_map]
    have hmm : (((fetch_single_exchange_aggregated_balance query_results).map
        ((fun kv => kv.2.usd_value) ∘ (fun kv => (kv.1, (⟨kv.2.free, kv.2.used,
          kv.2.total, quantDown2 (assetUsdValueRaw cacheLast localPrice kv.1 kv.2)⟩ :
            AssetAmountsUsd)))))).sum =
        (((fetch_single_exchange_aggregated_balance query_results).map
          (fun kv => assetUsdValueRaw cacheLast localPrice kv.1 kv.2)).map
            quantDown2).sum := by
      rw [List.map_map]
      apply congrArg List.sum
      apply List.map_congr_left
      intro kv _
      rfl
    rw [hmm]
    apply sum_quantDown2_le
    intro x hx
    rw [List.mem_map] at hx
    obtain ⟨kv, hkv, rfl⟩ := hx
    exact hnn kv hkv
  · intro hr kv hkv
    have hmem : ∃ kv₀ ∈ fetch_single_exchange_aggregated_balance query_results,
        kv = (kv₀.1, ⟨kv₀.2.free, kv₀.2.used, kv₀.2.total,
          quantDown2 (assetUsdValueRaw cacheLast localPrice kv₀.1 kv₀.2)⟩) := by
      have : kv ∈ (fetch_single_exchange_aggregated_balance query_results).map
          (fun kv => (kv.1, (⟨kv.2.free, kv.2.used, kv.2.total,
            quantDown2 (assetUsdValueRaw cacheLast localPrice kv.1 kv.2)⟩ :
              AssetAmountsUsd))) := hkv
      rw [List.mem_map] at this
      obtain ⟨kv₀, h₀, heq⟩ := this
      exact ⟨kv₀, h₀, heq.symm⟩
    obtain ⟨kv₀, h₀, rfl⟩ := hmem
    exact aggregated_freeLeTotal query_results hr kv₀ h₀

/-- Concrete balance query result: one account type reporting 0.015 USDT
and 0.015 USDC, all free. -/
def qrW : List (List FetchRecord) :=
  [[⟨str "USDT", 3/200, some (3/200), some 0⟩, ⟨str "USDC", 3/200, some (3/200), some 0⟩]]

/-- The aggregation of `qrW`. -/
theorem fetch_qrW :
    fetch_single_exchange_aggregated_balance qrW =
      [(str "USDT", ⟨3/200, 0, 3/200⟩), (str "USDC", ⟨3/200, 0, 3/200⟩)] := by
  unfold fetch_single_exchange_aggregated_balance qrW addBalanceRecord
  norm_num +decide [alookup, DECIMAL_COMPARISON_EPSILON]

/-- C8 counterexample: on the snapshot of `qrW`, `total_usd` is 0.03 while
the recorded per-asset `usd_value`s (each rounded down to a cent) sum to
0.02 — so `total_usd` is not the sum of the recorded `usd_value`s. -/
theorem C8_counterexample :
    (snapshotExchangeBalance qrW (fun _ => none) (fun _ => none)).total_usd ≠
      (((snapshotExchangeBalance qrW (fun _ => none) (fun _ => none)).assets.map
        (fun kv => kv.2.usd_value)).sum) := by
  unfold snapshotExchangeBalance
  rw [fetch_qrW]
  unfold update_all_usd_values assetUsdValueRaw
  norm_num +decide [QUOTE_ASSET, quantDown2, ratTrunc]

/-- Witness for the amended C8 theorem at the concrete snapshot of `qrW`:
the recorded `usd_value`s sum to at most `total_usd`. -/
theorem C8_total_usd_and_free_le_witness :
    (((snapshotExchangeBalance qrW (fun _ => none) (fun _ => none)).assets.map
      (fun kv => kv.2.usd_value)).sum ≤
      (snapshotExchangeBalance qrW (fun _ => none) (fun _ => none)).total_usd) :=
  (C8_total_usd_and_free_le qrW (fun _ => none) (fun _ => none)).2.1 (by
    rw [fetch_qrW]
    intro kv hkv
    rw [List.mem_cons, List.mem_singleton] at hkv
    rcases hkv with rfl | rfl <;>
      · unfold assetUsdValueRaw
        norm_num +decide [QUOTE_ASSET])

/-! ### Analyzer fee enrichment (`Analyzer._enrich_opportunities_with_fees`). -/

/-- `Config.TRADE_AMOUNT_USD = Decimal("10")`. -/
def TRADE_AMOUNT_USD : ℚ := 10

/-- `Config.ESTIMATED_WITHDRAWAL_FEES_USD['DEFAULT_ASSET_FEE']`. -/
def DEFAULT_ASSET_FEE : ℚ := 0.5

/-- `Config.ESTIMATED_WITHDRAWAL_FEES_USD` (per-asset tables). -/
def ESTIMATED_WITHDRAWAL_FEES_USD : List (Str × List (Str × ℚ)) := [
  (str "USDT", [(str "ERC20", 5.0), (str "TRC20", 1.0), (str "BEP20", 0.3),
    (str "POLYGON", 0.5), (str "SOLANA", 1.0), (str "OPTIMISM", 0.5),
    (str "ARBITRUM_ONE", 0.5), (str "AVAX", 0.5), (str "TON", 0.5),
    (str "DEFAULT", 2.0)]),
  (str "MTL", [(str "DEFAULT", 1.0), (str "MTL_NET", 0.5), (str "ERC20", 3.0)]),
  (str "COTI", [(str "BEP20", 0.03), (str "ERC20", 3.0)]),
  (str "KMD", [(str "KMD_NET", 0.001), (str "BEP20", 0.05)]),
  (str "HAI", [(str "VET_NET", 0.01)]),
  (str "ACM", [(str "CHILIZ", 0.5)]), (str "ADA", [(str "ADA", 0.1)])]

/-- A candidate transfer network as returned by
`_select_optimal_network_for_transfer`. -/
structure NetworkOption where
  withdraw_network_code_on_from_ex : Str
  deposit_network_code_on_to_ex : Str
  normalized_name : Str
  fee_native : ℚ
  fee_currency : Str
  min_withdrawal_native : ℚ
  source_of_fee : Str
  priority_score_token : ℕ
  priority_score_general : ℕ
deriving DecidableEq, Repr

/-- `ArbitrageOpportunity.base_asset`: `symbol.split('/')[0]`. -/
def base_asset (o : ArbitrageOpportunity) : Str := o.symbol.takeWhile (· ≠ '/')

/-- The enrichment outputs of `_enrich_opportunities_with_fees` for one
opportunity. -/
structure EnrichedOpp where
  buy_fee_pct : ℚ
  sell_fee_pct : ℚ
  withdrawal_fee_usd : Option ℚ
  chosen_network : Option Str
  net_profit_pct : Option ℚ

/-- Fee enrichment of one opportunity (source lines 3036-3100):
taker fees default to 0.1%; the withdrawal fee of the cheapest candidate
network is converted to quote using the buy price when the fee currency is
the base asset, taken as-is when it is the quote asset, and otherwise
priced through the USDT oracle (falling back to the default estimate);
with no candidate network, the per-asset default estimate is used; the net
percentage subtracts both taker fees and the withdrawal fee as a
percentage of `TRADE_AMOUNT_USD`. `potential_networks` stands for the
selector's result and `oracle` for `get_asset_price_in_usdt`. -/
def enrich_opportunity_fees (opp : ArbitrageOpportunity)
    (buy_taker sell_taker : Option ℚ) (potential_networks : List NetworkOption)
    (oracle : Str → Option ℚ) : EnrichedOpp :=
  let default_taker_fee_rate : ℚ := 0.001
  let buy_fee_pct := buy_taker.getD default_taker_fee_rate * 100
  let sell_fee_pct := sell_taker.getD default_taker_fee_rate * 100
  let withdrawal_fee_usd : Option ℚ :=
    match potential_networks with
    | best :: _ =>
      if pyUpper best.fee_currency = pyUpper (base_asset opp) then
        some (best.fee_native * opp.buy_price)
      else if pyUpper best.fee_currency = pyUpper QUOTE_ASSET then
        some best.fee_native
      else
        match oracle best.fee_currency with
        | some p => if 0 < p then some (best.fee_native * p) else some DEFAULT_ASSET_FEE
        | none => some DEFAULT_ASSET_FEE
    | [] =>
      some ((alookup ((alookup ESTIMATED_WITHDRAWAL_FEES_USD
        (pyUpper (base_asset opp))).getD []) (str "DEFAULT")).getD DEFAULT_ASSET_FEE)
  let net_profit_pct : Option ℚ :=
    match withdrawal_fee_usd with
    | some w =>
      if 0 < TRADE_AMOUNT_USD then
        some (opp.gross_profit_pct - buy_fee_pct - sell_fee_pct -
          (w / TRADE_AMOUNT_USD) * 100)
      else none
    | none => none
  ⟨buy_fee_pct, sell_fee_pct, withdrawal_fee_usd,
    match potential_networks with
    | best :: _ => some best.normalized_name
    | [] => none,
    net_profit_pct⟩

/-- C3. For every opportunity enriched with a determined withdrawal fee
and with `TRADE_AMOUNT_USD > 0`: the withdrawal fee in quote currency is
`fee_native * buy_price` when the chosen (cheapest) network's fee currency
is the base asset, `fee_native` when it is the quote asset, and
`fee_native` times the oracle price of the fee currency otherwise (when
that oracle price is positive); and
`net_profit_pct = gross_profit_pct - buy_fee_pct - sell_fee_pct -
(withdrawal_fee_usd / TRADE_AMOUNT_USD) * 100`. -/
theorem C3_enrichment_fee_conversion :
    ∀ (opp : ArbitrageOpportunity) (buy_taker sell_taker : Option ℚ)
      (best : NetworkOption) (rest : List NetworkOption) (oracle : Str → Option ℚ),
      0 < TRADE_AMOUNT_USD ∧
      ((pyUpper best.fee_currency = pyUpper (base_asset opp) →
        (enrich_opportunity_fees opp buy_taker sell_taker (best :: rest)
          oracle).withdrawal_fee_usd = some (best.fee_native * opp.buy_price)) ∧
      (pyUpper best.fee_currency ≠ pyUpper (base_asset opp) →
        pyUpper best.fee_currency = pyUpper QUOTE_ASSET →
        (enrich_opportunity_fees opp buy_taker sell_taker (best :: rest)
          oracle).withdrawal_fee_usd = some best.fee_native) ∧
      (pyUpper best.fee_currency ≠ pyUpper (base_asset opp) →
        pyUpper best.fee_currency ≠ pyUpper QUOTE_ASSET →
        ∀ p, oracle best.fee_currency = some p → 0 < p →
        (enrich_opportunity_fees opp buy_taker sell_taker (best :: rest)
          oracle).withdrawal_fee_usd = some (best.fee_native * p))) ∧
      (∀ w, (enrich_opportunity_fees opp buy_taker sell_taker (best :: rest)
          oracle).withdrawal_fee_usd = some w →
        (enrich_opportunity_fees opp buy_taker sell_taker (best :: rest)
          oracle).net_profit_pct =
          some (opp.gross_profit_pct -
            (enrich_opportunity_fees opp buy_taker sell_taker (best :: rest)
              oracle).buy_fee_pct -
            (enrich_opportunity_fees opp buy_taker sell_taker (best :: rest)
              oracle).sell_fee_pct -
            (w / TRADE_AMOUNT_USD) * 100)) := by
  intro opp buy_taker sell_taker best rest oracle
  refine ⟨by norm_num [TRADE_AMOUNT_USD], ⟨?_, ?_, ?_⟩, ?_⟩
  · intro hbase
    unfold enrich_opportunity_fees
    dsimp only
    rw [if_pos hbase]
  · intro hnbase hquote
    unfold enrich_opportunity_fees
    dsimp only
    rw [if_neg hnbase, if_pos hquote]
  · intro hnbase hnquote p hp hppos
    unfold enrich_opportunity_fees
    dsimp only
    rw [if_neg hnbase, if_neg hnquote, hp]
    dsimp only
    rw [if_pos hppos]
  · intro w hw
    unfold enrich_opportunity_fees at hw ⊢
    dsimp only at hw ⊢
    rw [hw]
    dsimp only
    rw [if_pos (by norm_num [TRADE_AMOUNT_USD])]

/-- A concrete candidate network whose fee is paid in the base asset. -/
def netW : NetworkOption :=
  ⟨str "BEP20", str "BSC", str "BEP20", 1/1000, str "BTC", 0, str "CCXT_API_DATA", 0, 0⟩

/-- Witness for C3: enriching `oW` (symbol `BTC/USDT`, buy price 100) with
the base-fee network `netW` converts the withdrawal fee at the buy price. -/
theorem C3_enrichment_fee_conversion_witness :
    0 < TRADE_AMOUNT_USD ∧
    (enrich_opportunity_fees oW none none [netW] (fun _ => none)).withdrawal_fee_usd =
      some (netW.fee_native * oW.buy_price) :=
  ⟨(C3_enrichment_fee_conversion oW none none netW [] (fun _ => none)).1,
    (C3_enrichment_fee_conversion oW none none netW [] (fun _ => none)).2.1.1 (by decide)⟩

/-! ### Network selection (`Analyzer._select_optimal_network_for_transfer`). -/

/-- ASCII model of Python `str.lower` (character-wise). -/
def pyLower (s : Str) : Str := s.map Char.toLower

/-- `Config.ASSET_UNAVAILABLE_BLACKLIST` (transcribed). -/
def ASSET_UNAVAILABLE_BLACKLIST : List (Str × Str) := [
  (str "kucoin", str "ACM"), (str "binance", str "AIMONICA"), (str "kucoin", str "AIMONICA"),
  (str "binance", str "AQA"), (str "kucoin", str "AQA"), (str "binance", str "ARCA"),
  (str "binance", str "CLV"), (str "binance", str "FAKEAI"), (str "kucoin", str "FAKEAI"),
  (str "binance", str "HDRO"), (str "kucoin", str "HDRO"), (str "binance", str "KISHU"),
  (str "kucoin", str "KISHU"), (str "binance", str "NODLPIG"), (str "kucoin", str "NODLPIG"),
  (str "mexc", str "NODLPIG"), (str "gateio", str "NODLPIG"), (str "binance", str "POLC"),
  (str "binance", str "RINGAI"), (str "kucoin", str "RINGAI"), (str "binance", str "SKYA"),
  (str "kucoin", str "SKYA"), (str "binance", str "VELAAI"), (str "kucoin", str "VELAAI"),
  (str "binance", str "WHITE"), (str "kucoin", str "WHITE"), (str "kucoin", str "COTI"),
  (str "binance", str "MINT"), (str "binance", str "VAIX"), (str "gateio", str "VAIX"),
  (str "binance", str "BIFIF"), (str "mexc", str "BIFIF"), (str "binance", str "BONDLY"),
  (str "kucoin", str "BONDLY"), (str "mexc", str "BONDLY"), (str "binance", str "CREDI"),
  (str "mexc", str "CREDI"), (str "kucoin", str "MTL"), (str "mexc", str "MTL"),
  (str "binance", str "SMH"), (str "mexc", str "SMH"), (str "binance", str "TIDAL"),
  (str "mexc", str "TIDAL"),
  (str "binance", str "GAMESTOP"), (str "kucoin", str "GAMESTOP"),
  (str "mexc", str "GAMESTOP"), (str "gateio", str "GAMESTOP")]

/-- `Config.TOKEN_NETWORK_RESTRICTIONS`: withdraw USDT from Binance only
via BEP20. -/
def TOKEN_NETWORK_RESTRICTIONS : List ((Str × Str) × List Str) :=
  [((str "binance", str "USDT"), [str "BEP20"])]

/-- `Config.TOKEN_PREFERRED_NETWORKS` (transcribed). -/
def TOKEN_PREFERRED_NETWORKS : List (Str × List Str) := [
  (str "USDT", [str "OPTIMISM", str "AVAX", str "ARBITRUM_ONE", str "POLYGON", str "TON",
    str "BEP20", str "OPBNB", str "APTOS", str "CELO", str "SCROLL", str "NEAR",
    str "KAVA_EVM", str "SOLANA", str "KCC", str "ASSET_HUB_POLKADOT", str "TEZOS",
    str "GATECHAIN", str "TRC20", str "EOS", str "ERC20", str "KAIA"]),
  (str "USDC", [str "TRC20", str "BEP20", str "SOLANA", str "POLYGON", str "ARBITRUM_ONE",
    str "OPTIMISM", str "AVAX", str "ERC20"]),
  (str "ETH", [str "ARBITRUM_ONE", str "OPTIMISM", str "POLYGON", str "BEP20",
    str "ZKSYNC_ERA", str "LINEA", str "ERC20"]),
  (str "BTC", [str "LIGHTNING", str "BEP20", str "TRC20", str "BTC"]),
  (str "COTI", [str "BEP20", str "ERC20"]), (str "MTL", [str "MTL_NET", str "ERC20"]),
  (str "HAI", [str "VET_NET"]), (str "ACM", [str "CHILIZ"]),
  (str "CLV", [str "CLOVER_NATIVE", str "CLOVER_EVM", str "ERC20", str "BEP20"]),
  (str "KMD", [str "KMD_NET", str "BEP20"]), (str "LBR", [str "ERC20"]),
  (str "OBI", [str "BEP20"]),
  (str "RIFSOL", [str "SOLANA"]), (str "SWASH", [str "ERC20", str "POLYGON"]),
  (str "TIDAL", [str "ERC20"]), (str "NAVI", [str "ERC20"]), (str "BEAM", [str "BEAM"]),
  (str "CGPU", [str "BEP20"]), (str "GEL", [str "ERC20"]), (str "HDRO", [str "INJ"]),
  (str "HOLDSTATION", [str "BERA"]), (str "JOYSTREAM", [str "JOYSTREAM"]),
  (str "KOKO", [str "SOLANA"]), (str "KP3R", [str "ERC20"]), (str "LOBO", [str "RUNES"]),
  (str "PAW", [str "ERC20"]), (str "POLC", [str "BEP20", str "ERC20"]),
  (str "RINGAI", [str "ERC20"]),
  (str "RLY", [str "ERC20"]), (str "SMURFCAT", [str "ERC20"]), (str "SWAP", [str "ERC20"]),
  (str "UMB", [str "ERC20"]), (str "WNXM", [str "ERC20"]), (str "XNA", [str "XNA_NET"]),
  (str "TROLL", [str "ERC20"]), (str "UOS", [str "ERC20"]),
  (str "FISHW", [str "SEI_EVM", str "SEI"]),
  (str "MTR", [str "MTR_NET"]), (str "MTRG", [str "MTR_NET"]), (str "THN", [str "ERC20"]),
  (str "NETVR", [str "ERC20"]), (str "BSX", [str "BASE"]), (str "GAMESTOP", [str "ERC20"]),
  (str "SKYA", [str "ERC20"]), (str "TRADE", [str "POLYGON", str "ERC20"]),
  (str "KISHU", [str "ERC20"]), (str "MGO", [str "MANGO", str "SOLANA"]),
  (str "RWA", [str "BEP20"]), (str "HYVE", [str "ERC20"]), (str "CLH", [str "ERC20"]),
  (str "OOKI", [str "ERC20"]), (str "STRM", [str "BEP20"]), (str "POLK", [str "ERC20"]),
  (str "REVU", [str "ADA"]), (str "XCV", [str "BEP20"]),
  (str "SAHARA", [str "BEP20", str "ERC20"]),
  (str "MINT", [str "MINT_NET"]), (str "PBX", [str "ERC20", str "ADA"]),
  (str "EVMOS", [str "EVMOS_NET"]),
  (str "DEFAI", [str "SOLANA"]), (str "UPO", [str "POLYGON"]), (str "GAT", [str "NAC"])]

/-- `Config.get_network_priority_score`. -/
def get_network_priority_score (network_normalized : Str) (asset_symbol : Option Str) : ℕ :=
  let network_upper := pyUpper network_normalized
  match asset_symbol with
  | some a =>
    match alookup TOKEN_PREFERRED_NETWORKS (pyUpper a) with
    | some nets =>
      match nets.indexOf? network_upper with
      | some i => i
      | none =>
        match NETWORK_PREFERENCE.indexOf? network_upper with
        | some g => g + nets.length + 1000
        | none => 10000 + nets.length + NETWORK_PREFERENCE.length
    | none =>
      match NETWORK_PREFERENCE.indexOf? network_upper with
      | some g => g + 1000
      | none => 10000 + NETWORK_PREFERENCE.length
  | none =>
    match NETWORK_PREFERENCE.indexOf? network_upper with
    | some g => g + 1000
    | none => 10000 + NETWORK_PREFERENCE.length

/-- One network row of the operator fee file
(`Config.LOADED_EXCHANGE_FEES_DATA`), keyed by normalised name. -/
structure DirectNetInfo where
  fee : Option ℚ
  can_withdraw : Option Bool
  can_deposit : Option Bool
  min_withdraw : Option ℚ
  original_name_from_file : Option Str

/-- One network row of the CCXT `fetch_currencies` data, keyed by the
venue's original network name. -/
structure CcxtNetInfo where
  active : Option Bool
  withdraw : Option Bool
  deposit : Option Bool
  fee : Option ℚ
  feeCurrency : Option Str
  withdraw_min : Option ℚ

/-- A withdrawal capability discovered on the source venue. -/
structure FromNetworkDetail where
  withdraw_network_code_on_from_ex : Str
  normalized_name : Str
  fee_native : ℚ
  fee_currency : Str
  min_withdrawal_native : ℚ
  source_of_fee : Str
deriving DecidableEq, Repr

/-- Whether a (nonempty) `TOKEN_NETWORK_RESTRICTIONS` entry rules a
network out. -/
def restrictionBlocks (allowed : Option (List Str)) (net : Str) : Bool :=
  match allowed with
  | some l => !l.isEmpty && !(l.contains net)
  | none => false

/-- Withdrawal networks from the operator fee file (trusted source, taken
first): entries with a fee, withdrawable, and not ruled out by a token
network restriction. -/
def fromDirectDetails (asset_code_upper : Str) (allowed : Option (List Str))
    (from_networks_direct : List (Str × DirectNetInfo)) : List FromNetworkDetail :=
  from_networks_direct.filterMap (fun kv =>
    match kv.2.fee with
    | none => none
    | some fee_dec =>
      if !(kv.2.can_withdraw.getD true) then none
      else if restrictionBlocks allowed kv.1 then none
      else some ⟨kv.2.original_name_from_file.getD kv.1, kv.1, fee_dec,
        asset_code_upper, kv.2.min_withdraw.getD 0, str "DIRECT_CONFIG_DATA"⟩)

/-- Fold one CCXT network of the source venue into the withdrawal list:
skip restricted names, names already covered by a trusted entry, inactive
or non-withdrawable networks, and networks without fee information. -/
def addCcxtFromNetwork (asset_code_upper : Str) (allowed : Option (List Str))
    (acc : List FromNetworkDetail) (kv : Str × CcxtNetInfo) : List FromNetworkDetail :=
  let normalized := normalize_network_name_for_config kv.1
  if restrictionBlocks allowed normalized then acc
  else if acc.any (fun pfn => pfn.normalized_name = normalized) then acc
  else if !(kv.2.active.getD true && kv.2.withdraw.getD true) then acc
  else
    match kv.2.fee with
    | none => acc
    | some fee_decimal =>
      acc ++ [⟨kv.1, normalized, fee_decimal,
        pyUpper (kv.2.feeCurrency.getD asset_code_upper),
        kv.2.withdraw_min.getD 0, str "CCXT_API_DATA"⟩]

/-- `potential_from_networks_details`: trusted file entries first, then the
CCXT entries not already covered. -/
def potential_from_networks (asset_code_upper : Str) (allowed : Option (List Str))
    (directFrom : List (Str × DirectNetInfo)) (ccxtFrom : List (Str × CcxtNetInfo)) :
    List FromNetworkDetail :=
  ccxtFrom.foldl (addCcxtFromNetwork asset_code_upper allowed)
    (fromDirectDetails asset_code_upper allowed directFrom)

/-- Fold one fee-file network of the destination venue into the
deposit-enabled map (normalised name → venue deposit code; first entry
wins). -/
def addDirectToNetwork (acc : List (Str × Str)) (kv : Str × DirectNetInfo) :
    List (Str × Str) :=
  if kv.2.can_deposit.getD true then
    if (alookup acc kv.1).isNone then
      acc ++ [(kv.1, kv.2.original_name_from_file.getD kv.1)]
    else acc
  else acc

/-- Fold one CCXT network of the destination venue into the
deposit-enabled map. -/
def addCcxtToNetwork (acc : List (Str × Str)) (kv : Str × CcxtNetInfo) :
    List (Str × Str) :=
  if kv.2.active.getD true && kv.2.deposit.getD true then
    let norm := normalize_network_name_for_config kv.1
    if (alookup acc norm).isNone then acc ++ [(norm, kv.1)] else acc
  else acc

/-- `active_deposit_normalized_nets_on_to_ex`. -/
def active_deposit_networks (directTo : List (Str × DirectNetInfo))
    (ccxtTo : List (Str × CcxtNetInfo)) : List (Str × Str) :=
  ccxtTo.foldl addCcxtToNetwork (directTo.foldl addDirectToNetwork [])

/-- Intersect the withdrawal capabilities with the deposit map by
normalised name (excluding `UNKNOWN_NETWORK`), apply the minimum-withdrawal
amount filter, and attach the deposit code and the preference scores. -/
def buildCandidates (asset_code_upper : Str) (amountOpt : Option ℚ)
    (fromDetails : List FromNetworkDetail) (depositMap : List (Str × Str)) :
    List NetworkOption :=
  fromDetails.filterMap (fun fd =>
    match alookup depositMap fd.normalized_name with
    | none => none
    | some deposit_code =>
      if fd.normalized_name = str "UNKNOWN_NETWORK" then none
      else if (match amountOpt with
          | some a => decide (0 < fd.min_withdrawal_native) &&
              decide (a < fd.min_withdrawal_native)
          | none => false) then none
      else if deposit_code.isEmpty then none
      else some ⟨fd.withdraw_network_code_on_from_ex, deposit_code,
        fd.normalized_name, fd.fee_native, fd.fee_currency,
        fd.min_withdrawal_native, fd.source_of_fee,
        get_network_priority_score fd.normalized_name (some asset_code_upper),
        get_network_priority_score fd.normalized_name none⟩)

/-- The USD price used to rank a fee currency: the oracle price when
positive, else the (nonzero) static estimate. -/
def fee_currency_price_in_usd (oracle : Str → Option ℚ) (fee_curr_code : Str) :
    Option ℚ :=
  let est :=
    match alookup ESTIMATED_ASSET_PRICES_USD (pyUpper fee_curr_code) with
    | some e => if e = 0 then none else some e
    | none => none
  match oracle fee_curr_code with
  | some p => if 0 < p then some p else est
  | none => est

/-- `sort_key_for_networks`: (fee in USD — infinite when unpriceable and
not quote-denominated, token preference score, general preference score). -/
def sort_key_for_networks (oracle : Str → Option ℚ) (net : NetworkOption) :
    WithTop ℚ × ℕ × ℕ :=
  let fee_usd : WithTop ℚ :=
    match fee_currency_price_in_usd oracle net.fee_currency with
    | some p =>
      if 0 < p then ((net.fee_native * p : ℚ) : WithTop ℚ)
      else if pyUpper net.fee_currency = pyUpper QUOTE_ASSET then
        ((net.fee_native : ℚ) : WithTop ℚ)
      else ⊤
    | none =>
      if pyUpper net.fee_currency = pyUpper QUOTE_ASSET then
        ((net.fee_native : ℚ) : WithTop ℚ)
      else ⊤
  (fee_usd, net.priority_score_token, net.priority_score_general)

/-- Lexicographic comparison of sort keys (ascending). -/
def sortKeyLe (a b : WithTop ℚ × ℕ × ℕ) : Bool :=
  decide (a.1 < b.1) ||
    (decide (a.1 = b.1) &&
      (decide (a.2.1 < b.2.1) ||
        (decide (a.2.1 = b.2.1) && decide (a.2.2 ≤ b.2.2))))

/-- Stable insertion into a sorted list (elements comparing equal keep
their original relative order, like Python's `sort`). -/
def insertSorted (le : α → α → Bool) (x : α) : List α → List α
  | [] => [x]
  | y :: ys => if le y x then y :: insertSorted le x ys else x :: y :: ys

/-- Stable sort by an `le` comparison. -/
def sortByLe (le : α → α → Bool) (l : List α) : List α :=
  l.foldl (fun acc x => insertSorted le x acc) []

/-- `Analyzer._select_optimal_network_for_transfer` over the runtime data:
the fee-file tables (`directFrom`/`directTo`), the venues' CCXT currency
networks (`ccxtFrom`/`ccxtTo`) and the USD price oracle. -/
def select_optimal_network_for_transfer (asset_code from_exchange_id to_exchange_id : Str)
    (amount_native_to_withdraw_optional : Option ℚ)
    (directFrom : List (Str × DirectNetInfo)) (ccxtFrom : List (Str × CcxtNetInfo))
    (directTo : List (Str × DirectNetInfo)) (ccxtTo : List (Str × CcxtNetInfo))
    (oracle : Str → Option ℚ) : List NetworkOption :=
  let asset_code_upper := pyUpper asset_code
  let allowed := alookup TOKEN_NETWORK_RESTRICTIONS
    (pyLower from_exchange_id, asset_code_upper)
  if (pyLower from_exchange_id, asset_code_upper) ∈ ASSET_UNAVAILABLE_BLACKLIST ∨
      (pyLower to_exchange_id, asset_code_upper) ∈ ASSET_UNAVAILABLE_BLACKLIST then []
  else
    let fromDetails := potential_from_networks asset_code_upper allowed directFrom ccxtFrom
    if fromDetails.isEmpty then []
    else
      let depositMap := active_deposit_networks directTo ccxtTo
      if depositMap.isEmpty then []
      else
        let final_candidate_networks := buildCandidates asset_code_upper
          amount_native_to_withdraw_optional fromDetails depositMap
        if final_candidate_networks.isEmpty then []
        else
          sortByLe (fun a b =>
              sortKeyLe (sort_key_for_networks oracle a) (sort_key_for_networks oracle b))
            final_candidate_networks

/-- Membership in a stable insertion. -/
theorem mem_insertSorted (le : α → α → Bool) (x a : α) (l : List α) :
    a ∈ insertSorted le x l ↔ a = x ∨ a ∈ l := by
  induction l with
  | nil => simp [insertSorted]
  | cons y ys ih =>
    unfold insertSorted
    split_ifs with h
    · simp only [List.mem_cons, ih]
      tauto
    · simp only [List.mem_cons]

/-- The stable sort permutes: membership is unchanged. -/
theorem mem_sortByLe (le : α → α → Bool) (a : α) (l : List α) :
    a ∈ sortByLe le l ↔ a ∈ l := by
  unfold sortByLe
  have h : ∀ (l acc : List α),
      a ∈ l.foldl (fun acc x => insertSorted le x acc) acc ↔ a ∈ acc ∨ a ∈ l := by
    intro l
    induction l with
    | nil => intro acc; simp
    | cons x xs ih =>
      intro acc
      rw [List.foldl_cons, ih, mem_insertSorted, List.mem_cons]
      tauto
  rw [h l []]
  simp

/-- C2 (amended). Every candidate returned by the network selector pairs a
withdrawal capability discovered on the source venue with a deposit
capability recorded on the destination venue under the same normalised
name, and that shared name is never `UNKNOWN_NETWORK`. (The code does not
exclude the `DEFAULT` name, see the counterexample.) -/
theorem C2_selector_matched_networks :
    ∀ (asset_code from_exchange_id to_exchange_id : Str) (amountOpt : Option ℚ)
      (directFrom : List (Str × DirectNetInfo)) (ccxtFrom : List (Str × CcxtNetInfo))
      (directTo : List (Str × DirectNetInfo)) (ccxtTo : List (Str × CcxtNetInfo))
      (oracle : Str → Option ℚ) (cand : NetworkOption),
      cand ∈ select_optimal_network_for_transfer asset_code from_exchange_id
        to_exchange_id amountOpt directFrom ccxtFrom directTo ccxtTo oracle →
      cand.normalized_name ≠ str "UNKNOWN_NETWORK" ∧
      (∃ fd ∈ potential_from_networks (pyUpper asset_code)
          (alookup TOKEN_NETWORK_RESTRICTIONS
            (pyLower from_exchange_id, pyUpper asset_code)) directFrom ccxtFrom,
        fd.normalized_name = cand.normalized_name ∧
        fd.withdraw_network_code_on_from_ex = cand.withdraw_network_code_on_from_ex) ∧
      alookup (active_deposit_networks directTo ccxtTo) cand.normalized_name =
        some cand.deposit_network_code_on_to_ex := by
  intro asset_code from_ex to_ex amountOpt directFrom ccxtFrom directTo ccxtTo oracle cand h
  unfold select_optimal_network_for_transfer at h
  dsimp only at h
  split_ifs at h with hbl hfe hde hce
  · exact absurd h (List.not_mem_nil _)
  · exact absurd h (List.not_mem_nil _)
  · exact absurd h (List.not_mem_nil _)
  · exact absurd h (List.not_mem_nil _)
  · rw [mem_sortByLe] at h
    unfold buildCandidates at h
    rw [List.mem_filterMap] at h
    obtain ⟨fd, hfd, hsome⟩ := h
    rcases hdc : alookup (active_deposit_networks directTo ccxtTo) fd.normalized_name
      with _ | code
    · rw [hdc] at hsome
      cases hsome
    · rw [hdc] at hsome
      dsimp only at hsome
      split_ifs at hsome with h1 h2 h3
      cases hsome
      exact ⟨h1, ⟨fd, hfd, rfl, rfl⟩, hdc⟩

/-- CCXT currency data of the source venue for the C2 counterexample: a
single network literally named `DEFAULT`, active and withdrawable with a
fee. -/
def ccxtFromW : List (Str × CcxtNetInfo) :=
  [(str "DEFAULT", ⟨some true, some true, none, some 1, none, none⟩)]

/-- CCXT currency data of the destination venue: the same `DEFAULT`
network, active and depositable. -/
def ccxtToW : List (Str × CcxtNetInfo) :=
  [(str "DEFAULT", ⟨some true, none, some true, none, none, none⟩)]

/-- C2 counterexample: the selector matches the two `DEFAULT`-named
networks and returns a candidate whose shared normalised name is
`DEFAULT` — only `UNKNOWN_NETWORK` is excluded by the code. -/
theorem C2_counterexample :
    (select_optimal_network_for_transfer (str "XYZ") (str "binance") (str "kucoin")
      none [] ccxtFromW [] ccxtToW (fun _ => none)).map
        (fun c => c.normalized_name) = [str "DEFAULT"] := by decide

/-- The `DEFAULT` candidate produced in the counterexample input. -/
def candW : NetworkOption :=
  ⟨str "DEFAULT", str "DEFAULT", str "DEFAULT", 1, str "XYZ", 0, str "CCXT_API_DATA",
    get_network_priority_score (str "DEFAULT") (some (pyUpper (str "XYZ"))),
    get_network_priority_score (str "DEFAULT") none⟩

/-- Witness for the amended C2 theorem at the concrete selector input. -/
theorem C2_selector_matched_networks_witness :
    candW.normalized_name ≠ str "UNKNOWN_NETWORK" :=
  (C2_selector_matched_networks (str "XYZ") (str "binance") (str "kucoin")
    none [] ccxtFromW [] ccxtToW (fun _ => none) candW (by decide)).1
